import Mathlib

/-!
# seven5: resource resolver, dispatcher and transport pump

A shallow embedding of `go/src/seven5/server.go` (resolver, dispatcher,
registration, error factories, `toSimpleMap`, `dumpOutput`), of `m2conn.go`
(the guarded call around the target, the main loop of the pump and its
shutdown), of the earlier runner in `http_handler.go`, and of the login in
`login.go`.

Conventions of the embedding.

* A Go `string` is a Lean `String`.  The separator `/`, the sign characters and
  the decimal digits are single-byte ASCII, so splitting a text at its last `/`
  gives the same two pieces whether positions are counted in bytes (Go) or in
  characters (here).
* A Go `map[string]V` that is only read and updated by key is a function
  `String → Option V`; the maps of headers and query parameters, which the
  dispatcher only passes along, are association lists.
* A value of type `interface{}` is `Option Resource`: `none` is the nil
  interface, and a resource records which of the two capabilities its dynamic
  type implements.
* A run-time panic of the Go code is `none` in an `Option` result (or an
  `Except.error` carrying the panic value where the value matters).
* Calls to a capability are recorded in a trace, so that "does not invoke" is
  a statement about the trace.
-/

namespace Seven5

/-! ## Strings -/

/-- The separator of the URL space. -/
def slash : Char := '/'

/-- Position of the last occurrence of `c` in a list of characters. -/
def lastIndexOf (c : Char) : List Char → Option Nat
  | [] => none
  | x :: xs =>
    match lastIndexOf c xs with
    | some i => some (i + 1)
    | none => if x = c then some 0 else none

/-- Go `strings.LastIndex(s, sep)` for a one-character separator: the index of
the last occurrence, or `-1`. -/
def LastIndex (s : String) (sep : Char) : Int :=
  match lastIndexOf sep s.data with
  | some i => (i : Int)
  | none => -1

/-- Go slice expression `s[i:]`; out of range indices panic (`none`). -/
def sliceFrom (s : String) (i : Int) : Option String :=
  if 0 ≤ i ∧ i ≤ (s.data.length : Int) then some ⟨s.data.drop i.toNat⟩ else none

/-- Go slice expression `s[:i]`; out of range indices panic (`none`). -/
def sliceTo (s : String) (i : Int) : Option String :=
  if 0 ≤ i ∧ i ≤ (s.data.length : Int) then some ⟨s.data.take i.toNat⟩ else none

/-! ## `strconv.ParseInt(s, 10, 64)` -/

/-- The two error kinds of `strconv`. -/
inductive NumError where
  | ErrSyntax
  | ErrRange
  deriving DecidableEq, Repr

/-- Largest `uint64`. -/
def maxUint64 : Nat := 2 ^ 64 - 1

/-- The `cutoff64(10)` of `strconv`: the first `n` for which `n * 10` overflows. -/
def cutoff64 : Nat := maxUint64 / 10 + 1

/-- The digit value `strconv.ParseUint` assigns to a character: decimal digits
and letters get a value, anything else is a syntax error. -/
def digitVal (c : Char) : Option Nat :=
  if 48 ≤ c.toNat ∧ c.toNat ≤ 57 then some (c.toNat - 48)
  else if 97 ≤ c.toNat ∧ c.toNat ≤ 122 then some (c.toNat - 97 + 10)
  else if 65 ≤ c.toNat ∧ c.toNat ≤ 90 then some (c.toNat - 65 + 10)
  else none

/-- The digit loop of `strconv.ParseUint(s, 10, 64)`, `n` being the value
accumulated so far. -/
def parseUintLoop : List Char → Nat → Except NumError Nat
  | [], n => .ok n
  | c :: cs, n =>
    match digitVal c with
    | none => .error .ErrSyntax
    | some v =>
      if 10 ≤ v then .error .ErrSyntax
      else if cutoff64 ≤ n then .error .ErrRange
      else
        let n1 := n * 10 + v
        if maxUint64 < n1 then .error .ErrRange
        else parseUintLoop cs n1

/-- Go `strconv.ParseUint(s, 10, 64)`. -/
def ParseUint (s : List Char) : Except NumError Nat :=
  if s = [] then .error .ErrSyntax else parseUintLoop s 0

/-- Go `strconv.ParseInt(s, 10, 64)`: an optional sign, then `ParseUint`, then
the range check against `2^63`.  A range error of `ParseUint` comes with the
largest `uint64`, which fails that check too, so it stays a range error. -/
def ParseInt (s : String) : Except NumError Int :=
  match s.data with
  | [] => .error .ErrSyntax
  | c :: cs =>
    let neg := c = '-'
    let body := if c = '+' ∨ c = '-' then cs else c :: cs
    match ParseUint body with
    | .error e => .error e
    | .ok un =>
      if ¬ neg ∧ 2 ^ 63 ≤ un then .error .ErrRange
      else if neg ∧ 2 ^ 63 < un then .error .ErrRange
      else .ok (if neg then - (un : Int) else (un : Int))

/-! ## Error model -/

/-- The `Error` struct of the package. -/
structure Error where
  StatusCode : Int
  Location : String
  Message : String
  deriving DecidableEq, Repr

/-- A `(string, *Error)` pair as returned by the dispatcher and by every
capability. -/
abbrev Reply := String × Option Error

/-- `BadRequest(msg)`: `fmt.Sprintf("BadRequest - %s ", msg)` with status 400. -/
def BadRequest (msg : String) : Reply :=
  ("", some ⟨400, "", "BadRequest - " ++ msg ++ " "⟩)

/-- `NoContent()`. -/
def NoContent : Reply := ("", some ⟨204, "", "No content"⟩)

/-- `NotFound()`. -/
def NotFound : Reply := ("", some ⟨404, "", "Not found"⟩)

/-- `NotImplemented()`. -/
def NotImplemented : Reply := ("", some ⟨501, "", "Not implemented"⟩)

/-- `InternalErr(err)`, `errText` being `err.Error()`. -/
def InternalErr (errText : String) : Reply := ("", some ⟨500, "", errText⟩)

/-! ## Resources and the registry -/

/-- Resource identifier: `type Id int64`. -/
abbrev Id := Int

/-- A `map[string]string` that is only handed on. -/
abbrev StringMap := List (String × String)

/-- The dynamic value behind an `interface{}`: for each capability, the method
if the value implements it.  A method that does not return normally yields
`none`. -/
structure Resource where
  Index : Option (StringMap → StringMap → Option Reply)
  Find : Option (Id → StringMap → StringMap → Option Reply)

/-- An `interface{}` value; `none` is nil. -/
abbrev Iface := Option Resource

/-- Type assertion `x.(Indexer)` with the comma-ok form. -/
def asIndexer (x : Iface) : Option (StringMap → StringMap → Option Reply) :=
  match x with
  | none => none
  | some r => r.Index

/-- Type assertion `x.(Finder)` with the comma-ok form. -/
def asFinder (x : Iface) : Option (Id → StringMap → StringMap → Option Reply) :=
  match x with
  | none => none
  | some r => r.Find

/-- The documentation record filled in by `AddFindAndIndex`; `base` stands for
what `NewResourceDoc(r)` computed from the wire struct. -/
structure ResourceDoc (D : Type) where
  base : D
  Find : Iface
  GETSingular : String
  Index : Iface
  GETPlural : String

/-- The handler: registry, patterns handed to the mux, documentation. -/
structure SimpleHandler (D : Type) where
  resource : String → Option Iface
  mux : List String
  doc : String → Option (ResourceDoc D)

/-- `NewSimpleHandler()`: empty mapping in the URL space. -/
def NewSimpleHandler (D : Type) : SimpleHandler D :=
  { resource := fun _ => none, mux := [], doc := fun _ => none }

/-- Map assignment `m[k] = v`. -/
def mapSet {V : Type} (m : String → Option V) (k : String) (v : V) : String → Option V :=
  fun x => if x = k then some v else m x

/-! ## Resolver and dispatcher -/

/-- `SimpleHandler.resolve`. -/
def resolve {D : Type} (self : SimpleHandler D) (path : String) :
    Option (String × String × Iface) :=
  match self.resource path with
  | some someResource => some (path, "", someResource)
  | none =>
    let i := LastIndex path slash
    if i = -1 then some ("", "", none)
    else
      let i := i + 1
      match sliceFrom path i, sliceTo path i with
      | some id, some uriPathParent =>
        match self.resource uriPathParent with
        | some someResource => some (uriPathParent, id, someResource)
        | none => some ("", "", none)
      | _, _ => none

/-- One invocation of a capability, with its arguments. -/
inductive Call where
  | Index (header queryParams : StringMap)
  | Find (id : Id) (header queryParams : StringMap)

/-- What a run of `Dispatch` does: the capability calls it made, in order, and
the pair it returned (`none` when it did not return normally). -/
structure Outcome where
  calls : List Call
  ret : Option Reply

/-- `SimpleHandler.Dispatch`. -/
def Dispatch {D : Type} (self : SimpleHandler D) (method uriPath : String)
    (header queryParams : StringMap) : Outcome :=
  match resolve self uriPath with
  | none => ⟨[], none⟩
  | some (matched, id, someResource) =>
    if matched = "" then ⟨[], some NotFound⟩
    else if method = "GET" then
      if id.data.length = 0 then
        match asIndexer someResource with
        | some resIndex => ⟨[Call.Index header queryParams], resIndex header queryParams⟩
        | none => ⟨[], some NotImplemented⟩
      else
        match ParseInt id with
        | .error _ => ⟨[], some (BadRequest "resource ids must be non-negative integers")⟩
        | .ok num =>
          match asFinder someResource with
          | some resFind => ⟨[Call.Find num header queryParams], resFind num header queryParams⟩
          | none => ⟨[], some NotImplemented⟩
    else ⟨[], some ("", some ⟨501, "", "Not implemented yet"⟩)⟩

/-! ## The reference resolver

The resolver as the specification words it, written with a direct split of the
text at its last separator instead of an index and two slices. -/

/-- Split a text after the last occurrence of `c`: the part up to and including
that occurrence, and the part after it. -/
def splitLast (c : Char) : List Char → Option (List Char × List Char)
  | [] => none
  | x :: xs =>
    match splitLast c xs with
    | some (p, r) => some (x :: p, r)
    | none => if x = c then some ([x], xs) else none

/-- Reference definition of the resolver: exact match first, then the split at
the final separator, else the no-match triple. -/
def resolveRef {D : Type} (self : SimpleHandler D) (path : String) : String × String × Iface :=
  match self.resource path with
  | some r => (path, "", r)
  | none =>
    match splitLast slash path.data with
    | none => ("", "", none)
    | some (p, r) =>
      match self.resource ⟨p⟩ with
      | some res => (⟨p⟩, ⟨r⟩, res)
      | none => ("", "", none)

/-! ## Decimal numerals, as the specification reads them -/

/-- A decimal digit character. -/
def isDecDigit (c : Char) : Prop := 48 ≤ c.toNat ∧ c.toNat ≤ 57

instance (c : Char) : Decidable (isDecDigit c) := by
  unfold isDecDigit; infer_instance

/-- Positional value of a run of decimal digits read after an accumulated
value `n`. -/
def decValFrom (n : Nat) (ds : List Char) : Nat :=
  ds.foldl (fun a c => a * 10 + (c.toNat - 48)) n

/-- Positional value of a run of decimal digits. -/
def decVal (ds : List Char) : Nat := decValFrom 0 ds

/-- Keys of a registry built through the registration call end in the
separator. -/
def WellFormed {D : Type} (self : SimpleHandler D) : Prop :=
  ∀ k, self.resource k ≠ none → k.data.getLast? = some slash

/-! ## Registration -/

/-- How a call that changes the handler in place ends: it returns, or it
panics; either way `state` is the handler as the call left it. -/
inductive Completion (α : Type) where
  | returned (state : α)
  | panicked (state : α)

/-- The handler as the call left it. -/
def Completion.state {α : Type} : Completion α → α
  | .returned s => s
  | .panicked s => s

/-- `http.ServeMux.Handle(pattern, handler)`, on the patterns registered so
far: the library panics (`none`) on an empty pattern and on a pattern that is
already registered; otherwise the pattern is registered. -/
def muxHandle (mux : List String) (pattern : String) : Option (List String) :=
  if pattern = "" ∨ pattern ∈ mux then none else some (mux ++ [pattern])

/-- `SimpleHandler.AddFindAndIndex`.  `ToLower` is `strings.ToLower` and `d` is
the record `NewResourceDoc(r)` returned.  In each half the registry is
assigned first, then the pattern is handed to the mux, which may panic, then
the documentation entry is set and the shared record filled in.  The record is
shared by pointer between both documentation entries, so an entry shows the
content the record has when the call ends. -/
def AddFindAndIndex {D : Type} (ToLower : String → String) (self : SimpleHandler D)
    (singular : String) (finder : Iface) (plural : String) (indexer : Iface)
    (d : ResourceDoc D) : Completion (SimpleHandler D) :=
  let d1 : ResourceDoc D :=
    if singular ≠ "" then { d with Find := finder, GETSingular := singular } else d
  let d2 : ResourceDoc D :=
    if plural ≠ "" then { d1 with Index := indexer, GETPlural := plural } else d1
  let key1 := "/" ++ ToLower singular ++ "/"
  let key2 := "/" ++ ToLower plural ++ "/"
  if singular ≠ "" then
    match muxHandle self.mux key1 with
    | none => .panicked { self with resource := mapSet self.resource key1 finder }
    | some mux1 =>
      if plural ≠ "" then
        match muxHandle mux1 key2 with
        | none =>
          .panicked
            { resource := mapSet (mapSet self.resource key1 finder) key2 indexer
              mux := mux1
              doc := mapSet self.doc key1 d1 }
        | some mux2 =>
          .returned
            { resource := mapSet (mapSet self.resource key1 finder) key2 indexer
              mux := mux2
              doc := mapSet (mapSet self.doc key1 d2) key2 d2 }
      else
        .returned
          { resource := mapSet self.resource key1 finder
            mux := mux1
            doc := mapSet self.doc key1 d1 }
  else if plural ≠ "" then
    match muxHandle self.mux key2 with
    | none => .panicked { self with resource := mapSet self.resource key2 indexer }
    | some mux2 =>
      .returned
        { resource := mapSet self.resource key2 indexer
          mux := mux2
          doc := mapSet self.doc key2 d2 }
  else .returned self

/-! ## A sample application -/

/-- Lowercasing of the ASCII letters, used by the sample application. -/
def asciiLower (s : String) : String := ⟨s.data.map Char.toLower⟩

/-- A sample item resource: it implements `Finder` only and answers with a
text made from the identifier. -/
def widgetFinder : Resource :=
  { Index := none
    Find := some (fun id _ _ => some ("widget " ++ toString id, none)) }

/-- A sample collection resource: it implements `Indexer` only. -/
def widgetIndexer : Resource :=
  { Index := some (fun _ _ => some ("all widgets", none))
    Find := none }

/-- An empty documentation record. -/
def emptyDoc : ResourceDoc Unit :=
  { base := (), Find := none, GETSingular := "", Index := none, GETPlural := "" }

/-- The sample handler: `widgetFinder` under `/widget/` and `widgetIndexer`
under `/widgets/`. -/
def sampleHandler : SimpleHandler Unit :=
  (AddFindAndIndex asciiLower (NewSimpleHandler Unit) "Widget" (some widgetFinder)
    "Widgets" (some widgetIndexer) emptyDoc).state

/-- A handler that holds only a collection resource, under `/widgets/`. -/
def listerOnlyHandler : SimpleHandler Unit :=
  (AddFindAndIndex asciiLower (NewSimpleHandler Unit) "" none
    "Widgets" (some widgetIndexer) emptyDoc).state

/-- A handler that holds only an item resource, under `/widget/`. -/
def finderOnlyHandler : SimpleHandler Unit :=
  (AddFindAndIndex asciiLower (NewSimpleHandler Unit) "Widget" (some widgetFinder)
    "" none emptyDoc).state

/-- The text of the message the dispatcher gives to `BadRequest`. -/
def idMessage : String := "resource ids must be non-negative integers"

/-! ## The transport pump (`m2conn.go`)

The pump reads requests from the channel `In`, hands each one to the target
inside a guarded call, and writes the response to the channel `Out`.  A run of
the main loop is described by the requests it receives before `In` is closed
and by the trace of what it does on its channels.  Log output is not part of
the model. -/

/-- `mongrel2.HttpRequest`, as far as the pump reads it. -/
structure HttpRequest where
  ServerId : String
  ClientId : Int
  Path : String
  Header : StringMap
  Body : String
  deriving DecidableEq, Repr

/-- `mongrel2.HttpResponse`; the defaults are the zero values that
`new(mongrel2.HttpResponse)` gives.  `Body` is the content of the reader, or
`none` for a nil reader. -/
structure HttpResponse where
  ServerId : String := ""
  ClientId : List Int := []
  StatusCode : Int := 0
  StatusMsg : String := ""
  Header : StringMap := []
  ContentLength : Int := 0
  Body : Option String := none
  deriving DecidableEq, Repr

/-- The fields of `http.Request` that the translation fills. -/
structure Request where
  Method : String
  URL : String
  Body : String
  Header : List (String × List String)
  deriving DecidableEq, Repr

/-- The fields of `http.Response` that the translation reads. -/
structure Response where
  StatusCode : Int
  Status : String
  Header : List (String × List String)
  ContentLength : Int
  Body : Option String
  deriving DecidableEq, Repr

/-- The argument of a `panic`, as `recover()` hands it to a deferred function:
the nil interface, or a value with its `%v` rendering. -/
inductive PanicValue where
  | nil
  | value (text : String)
  deriving DecidableEq, Repr

/-- The functions of the Go library that the pump calls: `http.NewRequest`
(with the text of its error), `http.CanonicalHeaderKey`, `strings.ToLower`, and
the text of the run-time error raised by indexing an empty slice. -/
structure GoLib where
  NewRequest : String → String → String → Except String Request
  CanonicalHeaderKey : String → String
  ToLower : String → String
  indexErrorText : String

/-- The two constants of the route test, declared elsewhere in the package. -/
structure RouteTest where
  route_test_header : String
  route_test_response_code : Int

/-- Map read `m[k]` on a `map[string]string`: the zero value when absent. -/
def goLookup (m : StringMap) (k : String) : String :=
  match m.lookup k with
  | some v => v
  | none => ""

/-- Map assignment `m[k] = v` on an association list. -/
def assocSet {V : Type} : List (String × V) → String → V → List (String × V)
  | [], k, v => [(k, v)]
  | (k1, v1) :: rest, k, v =>
    if k1 = k then (k, v) :: rest else (k1, v1) :: assocSet rest k v

/-- `m2ToHttp`: build the `http.Request`; an error of `http.NewRequest` is
thrown by `panic(err)`. -/
def m2ToHttp (lib : GoLib) (inp : HttpRequest) : Except PanicValue Request :=
  let method := goLookup inp.Header "METHOD"
  let url := goLookup inp.Header "URI"
  match lib.NewRequest method url inp.Body with
  | .error err => .error (.value err)
  | .ok out =>
    .ok { out with
      Header := inp.Header.foldl
        (fun hdr kv => assocSet hdr (lib.CanonicalHeaderKey kv.1) [kv.2]) [] }

/-- The header loop of `httpToM2`: `out.Header[CanonicalHeaderKey(k)] = v[0]`,
which panics on an empty `v`. -/
def convertHeader (lib : GoLib) :
    List (String × List String) → StringMap → Except PanicValue StringMap
  | [], acc => .ok acc
  | (_, []) :: _, _ => .error (.value lib.indexErrorText)
  | (k, v0 :: _) :: rest, acc =>
    convertHeader lib rest (assocSet acc (lib.CanonicalHeaderKey k) v0)

/-- `httpToM2`. -/
def httpToM2 (lib : GoLib) (sid : String) (cid : Int) (inp : Response) :
    Except PanicValue HttpResponse :=
  match convertHeader lib inp.Header [] with
  | .error x => .error x
  | .ok hdr =>
    .ok { ServerId := sid
          ClientId := [cid]
          StatusCode := inp.StatusCode
          StatusMsg := inp.Status
          Header := hdr
          ContentLength := inp.ContentLength
          Body := inp.Body }

/-- The target of a pump (`Httpified`).  `ProcessRequest` either panics with a
value or returns a response, `none` being the nil response that asks for a
shutdown. -/
structure Httpified where
  Name : String
  ProcessRequest : Request → Except PanicValue (Option Response)

/-- The body of `protectedProcessRequest`, before the deferred function runs:
the value assigned to `resp`, or the panic that interrupted it. -/
def processRequestBody (lib : GoLib) (req : HttpRequest) (target : Httpified) :
    Except PanicValue (Option HttpResponse) :=
  match m2ToHttp lib req with
  | .error x => .error x
  | .ok requestAsHttp =>
    match target.ProcessRequest requestAsHttp with
    | .error x => .error x
    | .ok none => .ok none
    | .ok (some respAsHttp) =>
      match httpToM2 lib req.ServerId req.ClientId respAsHttp with
      | .error x => .error x
      | .ok resp => .ok (some resp)

/-- The page built by the deferred function of `protectedProcessRequest`;
`NewBufferCloserFromString(s)` holds the bytes of `s` and `Len()` counts
them. -/
def panicPage (text : String) : HttpResponse :=
  { StatusCode := 500
    StatusMsg := "Internal Server Error"
    ContentLength := (("Panic: " ++ text ++ "\n").utf8ByteSize : Int)
    Body := some ("Panic: " ++ text ++ "\n") }

/-- `protectedProcessRequest`.  The deferred function replaces the result only
when `recover()` is not nil; after a panic whose value is nil the named result
keeps its zero value, the nil response. -/
def protectedProcessRequest (lib : GoLib) (req : HttpRequest) (target : Httpified) :
    Option HttpResponse :=
  match processRequestBody lib req target with
  | .ok resp => resp
  | .error x =>
    match x with
    | .nil => none
    | .value text => some (panicPage text)

/-- What the main loop does: the guarded call for a request, a send on `Out`,
the close of `Out`, the close of the shutdown channel, and the death of the
loop by a panic raised outside the guarded call. -/
inductive Event where
  | Guarded (req : HttpRequest)
  | Send (resp : HttpResponse)
  | CloseOut
  | CloseShutdown
  | Panic
  deriving DecidableEq, Repr

/-- The state of a channel that exists. -/
inductive Chan where
  | isOpen
  | isClosed
  deriving DecidableEq, Repr

/-- Go `close(c)` on a channel that exists: closing a closed channel panics
(`none`). -/
def closeChan : Chan → Option Chan
  | .isOpen => some .isClosed
  | .isClosed => none

/-- The acknowledgement of a route test. -/
def routeTestResponse (rt : RouteTest) (req : HttpRequest) (target : Httpified) :
    HttpResponse :=
  { ClientId := [req.ClientId]
    ServerId := req.ServerId
    StatusCode := rt.route_test_response_code
    Header := [(rt.route_test_header, target.Name)]
    StatusMsg := "Thanks for testing with seven5" }

/-- The main loop of `httpRunnerDefault.runHttp`, run on the requests that
`In` delivers before it is closed.  `Guarded req` records the call of
`protectedProcessRequest` for `req`, `Send` a send on `Out`, `CloseOut` the
`close(self.Out)` that ends the loop.  `getShutdownChannel()` is not among the
sources: it is taken to hand out the one shutdown channel of the process, and
`sd` is the state of that channel.  After a nil response the loop sends the
acknowledgement and closes the shutdown channel, outside the guarded call: if
the channel is closed already the close panics and the loop dies (`Panic`)
without closing `Out`; otherwise (`CloseShutdown`) the loop goes on. -/
def runHttp (lib : GoLib) (rt : RouteTest) (target : Httpified) :
    Chan → List HttpRequest → List Event
  | _, [] => [Event.CloseOut]
  | sd, req :: rest =>
    let testHeader := goLookup req.Header (lib.ToLower rt.route_test_header)
    if target.Name = testHeader then
      Event.Send (routeTestResponse rt req target) :: runHttp lib rt target sd rest
    else
      match protectedProcessRequest lib req target with
      | none =>
        Event.Guarded req
          :: Event.Send { StatusCode := 200, StatusMsg := "shutting down" }
          :: (match closeChan sd with
              | none => [Event.Panic]
              | some sd1 => Event.CloseShutdown :: runHttp lib rt target sd1 rest)
      | some resp => Event.Guarded req :: Event.Send resp :: runHttp lib rt target sd rest

/-! ## A sample pump -/

/-- A library instance for the samples: every request text is accepted. -/
def sampleLib : GoLib :=
  { NewRequest := fun m u b => .ok { Method := m, URL := u, Body := b, Header := [] }
    CanonicalHeaderKey := fun k => k
    ToLower := asciiLower
    indexErrorText := "runtime error: index out of range" }

/-- Route test constants for the samples. -/
def sampleRouteTest : RouteTest :=
  { route_test_header := "X-Seven5-Route-Test", route_test_response_code := 209 }

/-- A target that panics with the value `boom` on the path `/bad`, panics with
a nil value on the path `/nil`, and answers 200 otherwise. -/
def sampleTarget : Httpified :=
  { Name := "sample"
    ProcessRequest := fun r =>
      if r.URL = "/bad" then .error (.value "boom")
      else if r.URL = "/nil" then .error .nil
      else .ok (some { StatusCode := 200, Status := "200 OK", Header := [],
                       ContentLength := 2, Body := some "ok" }) }

/-- A sample request for the given URI. -/
def sampleRequest (uri : String) : HttpRequest :=
  { ServerId := "srv", ClientId := 7, Path := uri,
    Header := [("METHOD", "GET"), ("URI", uri)], Body := "" }

/-! ## Channels and shutdown

A channel field of a runner is nil until the runner is started; a channel that
exists is open or closed. -/

/-- The two channel fields of the runner of `m2conn.go`; `none` is a nil
channel. -/
structure httpRunnerDefault where
  In : Option Chan
  Out : Option Chan
  deriving DecidableEq, Repr

/-- `httpRunnerDefault.Shutdown` of `m2conn.go`: `close(self.In)` when
`self.In` is not nil.  `none` is a panic. -/
def httpRunnerDefault.Shutdown (self : httpRunnerDefault) : Option httpRunnerDefault :=
  match self.In with
  | none => some self
  | some c =>
    match closeChan c with
    | none => none
    | some c1 => some { self with In := some c1 }

/-- The two channel fields of the runner of `http_handler.go`. -/
structure HttpRunnerDefault where
  In : Option Chan
  Out : Option Chan
  deriving DecidableEq, Repr

/-- `HttpRunnerDefault.Shutdown` of `http_handler.go`: `close(self.Out)` when
`self.Out` is not nil.  `none` is a panic. -/
def HttpRunnerDefault.Shutdown (self : HttpRunnerDefault) : Option HttpRunnerDefault :=
  match self.Out with
  | none => some self
  | some c =>
    match closeChan c with
    | none => none
    | some c1 => some { self with Out := some c1 }

/-- A send `c <- v`: it completes on an open channel; on a closed channel it
panics and on a nil channel it blocks for ever (`none` in both cases). -/
def chanSend : Option Chan → Option Unit
  | some .isOpen => some ()
  | some .isClosed => none
  | none => none

/-- What `runHttp` of `m2conn.go` does before its loop: both channels are
made and stored in the runner. -/
def httpRunnerDefault.start (_self : httpRunnerDefault) : httpRunnerDefault :=
  { In := some .isOpen, Out := some .isOpen }

/-- What `RunHttp` of `http_handler.go` does before its loop. -/
def HttpRunnerDefault.start (_self : HttpRunnerDefault) : HttpRunnerDefault :=
  { In := some .isOpen, Out := some .isOpen }

/-! ## The pump of `http_handler.go`

The earlier runner: its target works on the mongrel2 request itself, and its
loop returns on a nil request without closing `Out`. -/

namespace HttpHandler

/-- The target of the earlier runner (`Httpified` of `http_handler.go`). -/
structure Httpified where
  Name : String
  ProcessRequest : HttpRequest → Except PanicValue (Option HttpResponse)

/-- `protectedProcessRequest` of `http_handler.go`.  After the call of the
target the log line reads `resp.ContentLength`, which panics on a nil response
with the run-time error text `nilErrorText`; the deferred function turns every
panic with a non-nil value into the 500 page. -/
def protectedProcessRequest (nilErrorText : String) (req : HttpRequest)
    (target : Httpified) : Option HttpResponse :=
  match target.ProcessRequest req with
  | .error .nil => none
  | .error (.value text) => some (panicPage text)
  | .ok none => some (panicPage nilErrorText)
  | .ok (some resp) => some resp

/-- What the loop of the earlier runner does on its channels; a nil response
can be sent. -/
inductive Event where
  | Guarded (req : HttpRequest)
  | Send (resp : Option HttpResponse)
  deriving DecidableEq, Repr

/-- The main loop of `HttpRunnerDefault.RunHttp`, run on the requests that
`In` delivers before the receive yields nil. -/
def RunHttp (lib : GoLib) (rt : RouteTest) (nilErrorText : String) (target : Httpified) :
    List HttpRequest → List Event
  | [] => []
  | req :: rest =>
    let testHeader := goLookup req.Header (lib.ToLower rt.route_test_header)
    if target.Name = testHeader then
      Event.Send (some
          { ClientId := [req.ClientId]
            ServerId := req.ServerId
            StatusCode := rt.route_test_response_code
            Header := [(rt.route_test_header, target.Name)]
            StatusMsg := "Thanks for testing with seven5" })
        :: RunHttp lib rt nilErrorText target rest
    else
      Event.Guarded req
        :: Event.Send (protectedProcessRequest nilErrorText req target)
        :: RunHttp lib rt nilErrorText target rest

end HttpHandler

/-! ## Observations on a run of the pump -/

/-- Whether the loop takes a request for a route test. -/
def isRouteTest (lib : GoLib) (rt : RouteTest) (target : Httpified) (req : HttpRequest) :
    Prop :=
  target.Name = goLookup req.Header (lib.ToLower rt.route_test_header)

instance (lib : GoLib) (rt : RouteTest) (target : Httpified) (req : HttpRequest) :
    Decidable (isRouteTest lib rt target req) := by
  unfold isRouteTest; infer_instance

/-- The responses sent on `Out` during a run, in order. -/
def sentOn : List Event → List HttpResponse
  | [] => []
  | Event.Send resp :: rest => resp :: sentOn rest
  | _ :: rest => sentOn rest

/-- The acknowledgement sent after the target asked for a shutdown. -/
def shuttingDownResponse : HttpResponse :=
  { StatusCode := 200, StatusMsg := "shutting down" }

/-- A target that asks for a shutdown on the path `/quit` and answers 200
otherwise. -/
def quitTarget : Httpified :=
  { Name := "quitter"
    ProcessRequest := fun r =>
      if r.URL = "/quit" then .ok none
      else .ok (some { StatusCode := 200, Status := "200 OK", Header := [],
                       ContentLength := 2, Body := some "ok" }) }

/-- A route test request for the sample target. -/
def sampleProbe : HttpRequest :=
  { ServerId := "srv", ClientId := 9, Path := "/probe",
    Header := [("METHOD", "GET"), ("URI", "/probe"), ("x-seven5-route-test", "sample")],
    Body := "" }

/-! ## `toSimpleMap` and `dumpOutput` (`server.go`) -/

/-- The loop of `toSimpleMap`: `result[k] = strings.TrimSpace(v[0])` for every
entry; indexing an empty list panics (`none`). -/
def toSimpleMapLoop (TrimSpace : String → String) :
    List (String × List String) → StringMap → Option StringMap
  | [], result => some result
  | (_, []) :: _, _ => none
  | (k, v0 :: _) :: rest, result =>
    toSimpleMapLoop TrimSpace rest (assocSet result k (TrimSpace v0))

/-- `toSimpleMap`; `TrimSpace` is `strings.TrimSpace`.  The map is given by its
entries, whose keys are distinct. -/
def toSimpleMap (TrimSpace : String → String) (m : List (String × List String)) :
    Option StringMap :=
  toSimpleMapLoop TrimSpace m []

/-- A call on the `http.ResponseWriter`: `Header().Add(key, value)`,
`http.Error(w, msg, code)` or `Write(body)`. -/
inductive WriterCall where
  | HeaderAdd (key value : String)
  | HttpError (msg : String) (code : Int)
  | Write (body : String)
  deriving DecidableEq, Repr

/-- `dumpOutput`: the calls made on the response writer, in order. -/
def dumpOutput (json : String) (err : Option Error) : List WriterCall :=
  match err with
  | some e =>
    (if e.Location ≠ "" then [WriterCall.HeaderAdd "Location" e.Location] else [])
      ++ [WriterCall.HttpError e.Message e.StatusCode]
  | none => [WriterCall.Write json]

/-! ## The login guise (`login.go`)

The store, `url.Parse`, `bcrypt` and `formatValidationError` are collaborators
given as functions; the random source is the list of the draws it hands out. -/

/-- A user record, as far as the login reads it. -/
structure User where
  Username : String
  BcryptHash : String
  deriving DecidableEq, Repr

/-- A session record; `Info` starts as an empty map. -/
structure Session where
  Owner : User
  SessionId : String
  Info : StringMap
  deriving DecidableEq, Repr

/-- The store `store.T`: `FindByKey` on users and on sessions (key name, then
value; the error text on failure) and `Write` (the error text, if any). -/
structure StoreT where
  FindUsersByKey : String → String → Except String (List User)
  FindSessionsByKey : String → String → Except String (List Session)
  Write : Session → Option String

/-- The three outcomes of `bcrypt.CompareHashAndPassword` that the login tells
apart. -/
inductive BcryptResult where
  | matched
  | mismatched
  | failed (text : String)
  deriving DecidableEq, Repr

/-- The collaborators of the login outside the store: `url.Parse(uri)` followed
by `Query()`, the password check, and `formatValidationError`. -/
structure LoginLib where
  ParseQuery : String → Except String (List (String × List String))
  CompareHashAndPassword : String → String → BcryptResult
  formatValidationError : StringMap → HttpResponse → HttpResponse

/-- One run of `createRandomSessionId` draws three letter indices with
`rand.Intn(len(letter))` and a number with `rand.Intn(1000)`. -/
structure Draw where
  l0 : Fin 26
  l1 : Fin 26
  l2 : Fin 26
  n : Fin 1000
  deriving DecidableEq, Repr

/-- The table `letter`. -/
def letter : List Char := "abcdefghijklmnopqrstuvwxyz".data

/-- `createRandomSessionId` on the values it drew: three letters, a dash and
the number on three digits (`%c%c%c-%03d`). -/
def createRandomSessionId (d : Draw) : String :=
  ⟨[letter.getD d.l0.val 'a', letter.getD d.l1.val 'a', letter.getD d.l2.val 'a', '-',
    Nat.digitChar (d.n.val / 100), Nat.digitChar (d.n.val / 10 % 10),
    Nat.digitChar (d.n.val % 10)]⟩

/-- The loop that looks for an unused session id: draw an id, look it up, stop
when the lookup finds nothing.  `none`: the draws given ran out; otherwise the
error text of the store, or the id found absent with the draws left. -/
def sessionIdLoop (store : StoreT) : List Draw → Option (Except String (String × List Draw))
  | [] => none
  | d :: ds =>
    let r := createRandomSessionId d
    match store.FindSessionsByKey "SessionId" r with
    | .error e => some (.error e)
    | .ok found => if found.length = 0 then some (.ok (r, ds)) else sessionIdLoop store ds

/-- The first value of a key of the parsed query, as the `range` loop takes
it: `v[0]`, which panics (`none`) on an empty list; the empty text when the
key is absent. -/
def firstValue (values : List (String × List String)) (key : String) : Option String :=
  match values.lookup key with
  | none => some ""
  | some [] => none
  | some (v0 :: _) => some v0

/-- `fillBody`. -/
def fillBody (jsonContent : String) (resp : HttpResponse) : HttpResponse :=
  { resp with
    Header := [("Content-Type", "text/json")]
    Body := some jsonContent
    ContentLength := (jsonContent.utf8ByteSize : Int)
    StatusCode := 200
    StatusMsg := "ok" }

/-- What a run of the login gives: the response, and the session handed to
`Write` when `Write` succeeded. -/
structure LoginOutcome where
  resp : HttpResponse
  written : Option Session
  deriving DecidableEq, Repr

/-- The response with status 500 and the error text as message. -/
def serverError (resp : HttpResponse) (text : String) : HttpResponse :=
  { resp with StatusCode := 500, StatusMsg := text }

/-- `LoginGuise.ProcessRequest`, on the draws the random source hands out.
`none`: the run panics or needs more draws than were given. -/
def LoginGuise.ProcessRequest (lib : LoginLib) (store : StoreT) (draws : List Draw)
    (req : HttpRequest) : Option LoginOutcome :=
  let uri := goLookup req.Header "URI"
  let resp : HttpResponse := { ServerId := req.ServerId, ClientId := [req.ClientId] }
  match lib.ParseQuery uri with
  | .error _ =>
    some ⟨{ resp with StatusCode := 400, StatusMsg := "could not understand URI" }, none⟩
  | .ok values =>
    match firstValue values "username", firstValue values "password" with
    | some user, some pwd =>
      let badCred : StringMap := [("_", "invalid username or password")]
      if user = "" ∨ pwd = "" then some ⟨lib.formatValidationError badCred resp, none⟩
      else
        match store.FindUsersByKey "Username" user with
        | .error e => some ⟨serverError resp e, none⟩
        | .ok [] => some ⟨lib.formatValidationError badCred resp, none⟩
        | .ok (hit :: _) =>
          match lib.CompareHashAndPassword hit.BcryptHash pwd with
          | .failed text => some ⟨serverError resp text, none⟩
          | .mismatched => some ⟨lib.formatValidationError badCred resp, none⟩
          | .matched =>
            match sessionIdLoop store draws with
            | none => none
            | some (.error e) => some ⟨serverError resp e, none⟩
            | some (.ok (_, [])) => none
            | some (.ok (_, d :: _)) =>
              let session : Session :=
                { Owner := hit, SessionId := createRandomSessionId d, Info := [] }
              match store.Write session with
              | some e => some ⟨serverError resp e, none⟩
              | none =>
                some ⟨fillBody ("\x7b\"sessionId\":\"" ++ session.SessionId ++ "\"\x7d") resp,
                  some session⟩
    | _, _ => none

/-! ## A sample login -/

/-- The sample user. -/
def ann : User := { Username := "ann", BcryptHash := "hash-of-secret" }

/-- A store with the user `ann` and one session, `bbb-111`. -/
def sampleStore : StoreT :=
  { FindUsersByKey := fun _ v => .ok (if v = "ann" then [ann] else [])
    FindSessionsByKey := fun _ v =>
      .ok (if v = "bbb-111" then [{ Owner := ann, SessionId := "bbb-111", Info := [] }]
           else [])
    Write := fun _ => none }

/-- Sample collaborators: every URI carries the credentials of `ann`. -/
def sampleLoginLib : LoginLib :=
  { ParseQuery := fun _ => .ok [("username", ["ann"]), ("password", ["secret"])]
    CompareHashAndPassword := fun h p =>
      if h = "hash-of-secret" ∧ p = "secret" then .matched else .mismatched
    formatValidationError := fun _ r => { r with StatusCode := 400 } }

/-- Two draws: the ids `aaa-000` and `bbb-111`. -/
def sampleDraws : List Draw :=
  [{ l0 := 0, l1 := 0, l2 := 0, n := 0 }, { l0 := 1, l1 := 1, l2 := 1, n := 111 }]

/-! ## Samples for the addressing and the route test claims -/

/-- A target whose name is the empty text; it answers 200 to every request. -/
def namelessTarget : Httpified :=
  { Name := ""
    ProcessRequest := fun _ =>
      .ok (some { StatusCode := 200, Status := "200 OK", Header := [],
                  ContentLength := 2, Body := some "ok" }) }

/-- The same target for the runner of `http_handler.go`. -/
def namelessTarget0 : HttpHandler.Httpified :=
  { Name := ""
    ProcessRequest := fun r =>
      .ok (some { ServerId := r.ServerId, ClientId := [r.ClientId], StatusCode := 200,
                  StatusMsg := "200 OK", ContentLength := 2, Body := some "ok" }) }

/-! ## Lemmas on the string helpers -/

theorem lastIndexOf_none_iff (c : Char) (l : List Char) :
    lastIndexOf c l = none ↔ c ∉ l := by
  induction l with
  | nil => simp [lastIndexOf]
  | cons x xs ih =>
    simp only [lastIndexOf, List.mem_cons, not_or]
    cases h : lastIndexOf c xs with
    | none =>
      have hx := ih.mp h
      by_cases hxc : x = c
      · simp [hxc]
      · simp [hxc, hx, Ne.symm hxc]
    | some i =>
      have hx : ¬ c ∉ xs := fun hn => by simp [ih.mpr hn] at h
      simp [hx]

theorem lastIndexOf_lt (c : Char) (l : List Char) (i : Nat)
    (h : lastIndexOf c l = some i) : i < l.length := by
  induction l generalizing i with
  | nil => simp [lastIndexOf] at h
  | cons x xs ih =>
    simp only [lastIndexOf] at h
    cases hxs : lastIndexOf c xs with
    | none =>
      rw [hxs] at h
      by_cases hxc : x = c
      · simp [hxc] at h; subst h; simp
      · simp [hxc] at h
    | some j =>
      rw [hxs] at h
      simp at h
      subst h
      have := ih j hxs
      simp; omega

theorem splitLast_of_lastIndexOf_none (c : Char) (l : List Char)
    (h : lastIndexOf c l = none) : splitLast c l = none := by
  induction l with
  | nil => rfl
  | cons x xs ih =>
    simp only [lastIndexOf] at h
    cases hxs : lastIndexOf c xs with
    | none =>
      rw [hxs] at h
      by_cases hxc : x = c
      · simp [hxc] at h
      · simp [splitLast, ih hxs, hxc]
    | some j => rw [hxs] at h; simp at h

theorem splitLast_of_lastIndexOf_some (c : Char) (l : List Char) (i : Nat)
    (h : lastIndexOf c l = some i) :
    splitLast c l = some (l.take (i + 1), l.drop (i + 1)) := by
  induction l generalizing i with
  | nil => simp [lastIndexOf] at h
  | cons x xs ih =>
    simp only [lastIndexOf] at h
    cases hxs : lastIndexOf c xs with
    | none =>
      rw [hxs] at h
      by_cases hxc : x = c
      · simp [hxc] at h
        subst h
        simp [splitLast, splitLast_of_lastIndexOf_none c xs hxs, hxc]
      · simp [hxc] at h
    | some j =>
      rw [hxs] at h
      simp at h
      subst h
      simp [splitLast, ih j hxs]

theorem splitLast_spec (c : Char) (l p r : List Char)
    (h : splitLast c l = some (p, r)) :
    l = p ++ r ∧ p.getLast? = some c ∧ c ∉ r := by
  induction l generalizing p r with
  | nil => simp [splitLast] at h
  | cons x xs ih =>
    simp only [splitLast] at h
    cases hxs : splitLast c xs with
    | none =>
      rw [hxs] at h
      by_cases hxc : x = c
      · simp [hxc] at h
        obtain ⟨hp, hr⟩ := h
        subst hp; subst hr
        refine ⟨by simp [hxc], by simp, ?_⟩
        intro hmem
        have hne : lastIndexOf c xs ≠ none := fun hn => (lastIndexOf_none_iff c xs).mp hn hmem
        cases hl : lastIndexOf c xs with
        | none => exact hne hl
        | some j =>
          rw [splitLast_of_lastIndexOf_some c xs j hl] at hxs
          simp at hxs
      · simp [hxc] at h
    | some pr =>
      obtain ⟨p1, r1⟩ := pr
      rw [hxs] at h
      simp at h
      obtain ⟨hp, hr⟩ := h
      subst hp; subst hr
      obtain ⟨h1, h2, h3⟩ := ih p1 r1 hxs
      refine ⟨by simp [h1], ?_, h3⟩
      cases p1 with
      | nil => simp at h2
      | cons y ys => simpa [List.getLast?_cons_cons] using h2

theorem splitLast_append (c : Char) (q r : List Char) (hr : c ∉ r) :
    splitLast c (q ++ c :: r) = some (q ++ [c], r) := by
  induction q with
  | nil =>
    have hn : splitLast c r = none :=
      splitLast_of_lastIndexOf_none c r ((lastIndexOf_none_iff c r).mpr hr)
    simp [splitLast, hn]
  | cons x xs ih => simp [splitLast, ih]

theorem splitLast_of_parts (c : Char) (p r : List Char)
    (hp : p.getLast? = some c) (hr : c ∉ r) :
    splitLast c (p ++ r) = some (p, r) := by
  obtain ⟨q, hq⟩ : ∃ q, p = q ++ [c] := by
    rcases List.eq_nil_or_concat p with hnil | ⟨q, b, hb⟩
    · subst hnil; simp at hp
    · subst hb
      simp at hp
      exact ⟨q, by simp [hp]⟩
  subst hq
  simpa using splitLast_append c q r hr

/-- The resolver of the source computes the reference resolver, and never
panics. -/
theorem resolve_eq_resolveRef {D : Type} (self : SimpleHandler D) (path : String) :
    resolve self path = some (resolveRef self path) := by
  unfold resolve resolveRef
  cases hres : self.resource path with
  | some r => rfl
  | none =>
    simp only [LastIndex]
    cases hl : lastIndexOf slash path.data with
    | none =>
      simp [splitLast_of_lastIndexOf_none slash path.data hl]
    | some i =>
      have hlt := lastIndexOf_lt slash path.data i hl
      have hi : ((i : Int) + 1).toNat = i + 1 := by omega
      have hne : ¬ ((i : Int) = -1) := by omega
      have hrange : 0 ≤ (i : Int) + 1 ∧ (i : Int) + 1 ≤ (path.data.length : Int) := by omega
      simp only [splitLast_of_lastIndexOf_some slash path.data i hl, sliceFrom, sliceTo,
        hne, hrange, hi, if_true, if_false, and_self]
      cases self.resource ⟨List.take (i + 1) path.data⟩ <;> rfl

/-! ## Lemmas on `ParseInt` -/

theorem maxUint64_eq : maxUint64 = 18446744073709551615 := by decide

theorem cutoff64_eq : cutoff64 = 1844674407370955162 := by decide

theorem digitVal_of_digit (c : Char) (h : isDecDigit c) :
    digitVal c = some (c.toNat - 48) := by
  unfold isDecDigit at h
  simp [digitVal, h]

theorem digitVal_of_not_digit (c : Char) (h : ¬ isDecDigit c) (v : Nat)
    (hv : digitVal c = some v) : 10 ≤ v := by
  unfold isDecDigit at h
  unfold digitVal at hv
  split at hv
  · contradiction
  · split at hv
    · simp at hv; omega
    · split at hv
      · simp at hv; omega
      · simp at hv

theorem decValFrom_ge (n : Nat) (ds : List Char) : n ≤ decValFrom n ds := by
  induction ds generalizing n with
  | nil => simp [decValFrom]
  | cons c cs ih =>
    have h := ih (n * 10 + (c.toNat - 48))
    simp only [decValFrom, List.foldl_cons] at h ⊢
    omega

theorem parseUintLoop_digits (ds : List Char) (n : Nat)
    (hd : ∀ c ∈ ds, isDecDigit c) (hn : n ≤ maxUint64) :
    parseUintLoop ds n =
      if decValFrom n ds ≤ maxUint64 then .ok (decValFrom n ds) else .error .ErrRange := by
  induction ds generalizing n with
  | nil => simp [parseUintLoop, decValFrom, hn]
  | cons c cs ih =>
    have hc : isDecDigit c := hd c (by simp)
    have hcs : ∀ d ∈ cs, isDecDigit d := fun d hmem => hd d (by simp [hmem])
    have hv : c.toNat - 48 < 10 := by unfold isDecDigit at hc; omega
    have hge := decValFrom_ge (n * 10 + (c.toNat - 48)) cs
    have hstep : decValFrom n (c :: cs) = decValFrom (n * 10 + (c.toNat - 48)) cs := by
      simp [decValFrom]
    rw [hstep]
    simp only [parseUintLoop, digitVal_of_digit c hc]
    rw [maxUint64_eq, cutoff64_eq] at *
    by_cases h1 : 1844674407370955162 ≤ n
    · have h2 : ¬ decValFrom (n * 10 + (c.toNat - 48)) cs ≤ 18446744073709551615 := by omega
      have h3 : ¬ 10 ≤ c.toNat - 48 := by omega
      simp [h1, h2, h3]
    · by_cases h4 : 18446744073709551615 < n * 10 + (c.toNat - 48)
      · have h2 : ¬ decValFrom (n * 10 + (c.toNat - 48)) cs ≤ 18446744073709551615 := by omega
        have h3 : ¬ 10 ≤ c.toNat - 48 := by omega
        simp [h1, h2, h3, h4]
      · have h3 : ¬ 10 ≤ c.toNat - 48 := by omega
        simp only [h1, h3, h4, if_false]
        exact ih _ hcs (by omega)

theorem ParseUint_digits (ds : List Char) (hne : ds ≠ [])
    (hd : ∀ c ∈ ds, isDecDigit c) :
    ParseUint ds = if decVal ds ≤ maxUint64 then .ok (decVal ds) else .error .ErrRange := by
  simp [ParseUint, hne, parseUintLoop_digits ds 0 hd (by decide), decVal]

/-- A run of digits whose value fits an `int64` parses to that value. -/
theorem ParseInt_digits (s : String) (hne : s.data ≠ [])
    (hd : ∀ c ∈ s.data, isDecDigit c) (hr : decVal s.data < 2 ^ 63) :
    ParseInt s = .ok (decVal s.data : Int) := by
  unfold ParseInt
  cases hs : s.data with
  | nil => exact absurd hs hne
  | cons c cs =>
    have hc : isDecDigit c := hd c (by simp [hs])
    have hplus : ¬ c = '+' := by
      intro h; subst h; revert hc; decide
    have hminus : ¬ c = '-' := by
      intro h; subst h; revert hc; decide
    have hds : ∀ d ∈ c :: cs, isDecDigit d := by rw [← hs]; exact hd
    have hval : decVal (c :: cs) < 2 ^ 63 := by rw [← hs]; exact hr
    have hu := ParseUint_digits (c :: cs) (by simp) hds
    have hle : decVal (c :: cs) ≤ maxUint64 := by rw [maxUint64_eq]; omega
    simp only [hplus, hminus, or_self, if_false, hu, hle, if_true]
    have hpow : (2 : Nat) ^ 63 = 9223372036854775808 := by norm_num
    have h63 : decVal (c :: cs) < 9223372036854775808 := by omega
    simp [h63]

/-- A minus sign followed by a run of digits whose value is at most `2^63`
parses to the negated value. -/
theorem ParseInt_neg_digits (ds : List Char) (hne : ds ≠ [])
    (hd : ∀ c ∈ ds, isDecDigit c) (hr : decVal ds ≤ 2 ^ 63) :
    ParseInt ⟨'-' :: ds⟩ = .ok (- (decVal ds : Int)) := by
  have hu := ParseUint_digits ds hne hd
  have hle : decVal ds ≤ maxUint64 := by rw [maxUint64_eq]; omega
  have hpow : (2 : Nat) ^ 63 = 9223372036854775808 := by norm_num
  have h63 : decVal ds ≤ 9223372036854775808 := by omega
  simp [ParseInt, hu, hle, h63]

/-- A run of digits whose value does not fit an `int64` is a range error. -/
theorem ParseInt_digits_overflow (s : String) (hne : s.data ≠ [])
    (hd : ∀ c ∈ s.data, isDecDigit c) (hr : 2 ^ 63 ≤ decVal s.data) :
    ParseInt s = .error .ErrRange := by
  unfold ParseInt
  cases hs : s.data with
  | nil => exact absurd hs hne
  | cons c cs =>
    have hc : isDecDigit c := hd c (by simp [hs])
    have hplus : ¬ c = '+' := by
      intro h; subst h; revert hc; decide
    have hminus : ¬ c = '-' := by
      intro h; subst h; revert hc; decide
    have hds : ∀ d ∈ c :: cs, isDecDigit d := by rw [← hs]; exact hd
    have hval : 2 ^ 63 ≤ decVal (c :: cs) := by rw [← hs]; exact hr
    have hu := ParseUint_digits (c :: cs) (by simp) hds
    simp only [hplus, hminus, or_self, if_false, hu]
    have hpow : (2 : Nat) ^ 63 = 9223372036854775808 := by norm_num
    have h63 : 9223372036854775808 ≤ decVal (c :: cs) := by omega
    by_cases hle : decVal (c :: cs) ≤ maxUint64
    · simp [hle, h63]
    · simp [hle]

theorem parseUintLoop_ok_digits (ds : List Char) (n m : Nat)
    (h : parseUintLoop ds n = .ok m) : ∀ c ∈ ds, isDecDigit c := by
  induction ds generalizing n with
  | nil => simp
  | cons c cs ih =>
    by_cases hc : isDecDigit c
    · simp only [parseUintLoop, digitVal_of_digit c hc] at h
      split at h
      · cases h
      · split at h
        · cases h
        · split at h
          · cases h
          · intro d hd
            rcases List.mem_cons.mp hd with rfl | hmem
            · exact hc
            · exact ih _ h d hmem
    · exfalso
      simp only [parseUintLoop] at h
      cases hv : digitVal c with
      | none => rw [hv] at h; cases h
      | some v =>
        rw [hv] at h
        have := digitVal_of_not_digit c hc v hv
        simp [this] at h

theorem ParseUint_ok_digits (l : List Char) (un : Nat) (h : ParseUint l = .ok un) :
    l ≠ [] ∧ ∀ c ∈ l, isDecDigit c := by
  unfold ParseUint at h
  by_cases hl : l = []
  · simp [hl] at h
  · simp only [hl, if_false] at h
    exact ⟨hl, parseUintLoop_ok_digits l 0 un h⟩

/-- What a successful parse tells about the text: it is not empty and holds no
separator. -/
theorem ParseInt_ok_shape (s : String) (n : Int) (h : ParseInt s = .ok n) :
    s.data ≠ [] ∧ slash ∉ s.data ∧ s.data.getLast? ≠ some slash := by
  unfold ParseInt at h
  cases hs : s.data with
  | nil => rw [hs] at h; cases h
  | cons c cs =>
    rw [hs] at h
    simp only at h
    have hslash : ¬ isDecDigit slash := by decide
    cases hu : ParseUint (if c = '+' ∨ c = '-' then cs else c :: cs) with
    | error e => rw [hu] at h; cases h
    | ok un =>
      have hbody := (ParseUint_ok_digits _ un hu).2
      have hnotin : slash ∉ c :: cs := by
        intro hmem
        by_cases hsign : c = '+' ∨ c = '-'
        · simp only [hsign, if_true] at hbody
          rcases List.mem_cons.mp hmem with hc | hc
          · rcases hsign with h1 | h1
            · rw [h1] at hc; revert hc; decide
            · rw [h1] at hc; revert hc; decide
          · exact hslash (hbody _ hc)
        · simp only [hsign, if_false] at hbody
          exact hslash (hbody _ hmem)
      refine ⟨by simp, hnotin, ?_⟩
      intro hlast
      exact hnotin (List.mem_of_getLast?_eq_some hlast)

/-! ## Lemmas on the registry and the resolver -/

theorem string_eq_of_data (a b : String) (h : a.data = b.data) : a = b := by
  cases a; cases b; simp_all

theorem wellFormed_new (D : Type) : WellFormed (NewSimpleHandler D) := by
  intro k hk
  simp [NewSimpleHandler] at hk

theorem getLast_wrap (t : String) : ("/" ++ t ++ "/").data.getLast? = some slash := by
  have : ("/" ++ t ++ "/").data = ("/" ++ t).data ++ [slash] := by
    simp [String.data_append]; rfl
  rw [this]
  exact List.getLast?_concat _

theorem wellFormed_mapSet {D : Type} (self : SimpleHandler D) (t : String) (v : Iface)
    (mux : List String) (doc : String → Option (ResourceDoc D)) (h : WellFormed self) :
    WellFormed
      { resource := mapSet self.resource ("/" ++ t ++ "/") v, mux := mux, doc := doc } := by
  intro k hk
  simp only [mapSet] at hk
  by_cases hk1 : k = "/" ++ t ++ "/"
  · rw [hk1]; exact getLast_wrap _
  · simp only [hk1, if_false] at hk
    exact h k hk

/-- Registration keeps the registry well formed, whether the call returns or
panics on the way. -/
theorem wellFormed_add {D : Type} (ToLower : String → String) (self : SimpleHandler D)
    (singular : String) (finder : Iface) (plural : String) (indexer : Iface)
    (d : ResourceDoc D) (h : WellFormed self) :
    WellFormed (AddFindAndIndex ToLower self singular finder plural indexer d).state := by
  unfold AddFindAndIndex
  simp only
  split
  · split
    · exact wellFormed_mapSet self _ finder _ _ h
    · split
      · split
        · exact wellFormed_mapSet _ _ indexer _ _
            (wellFormed_mapSet self _ finder self.mux self.doc h)
        · exact wellFormed_mapSet _ _ indexer _ _
            (wellFormed_mapSet self _ finder self.mux self.doc h)
      · exact wellFormed_mapSet self _ finder _ _ h
  · split
    · split
      · exact wellFormed_mapSet self _ indexer _ _ h
      · exact wellFormed_mapSet self _ indexer _ _ h
    · exact h

theorem wellFormed_sample : WellFormed sampleHandler :=
  wellFormed_add _ _ _ _ _ _ _ (wellFormed_new Unit)

theorem wellFormed_listerOnly : WellFormed listerOnlyHandler :=
  wellFormed_add _ _ _ _ _ _ _ (wellFormed_new Unit)

theorem wellFormed_finderOnly : WellFormed finderOnlyHandler :=
  wellFormed_add _ _ _ _ _ _ _ (wellFormed_new Unit)

theorem wf_last {D : Type} (self : SimpleHandler D) (hwf : WellFormed self)
    (p : String) (r : Iface) (hp : self.resource p = some r) :
    p.data.getLast? = some slash :=
  hwf p (by simp [hp])

theorem wf_ne_empty {D : Type} (self : SimpleHandler D) (hwf : WellFormed self)
    (p : String) (r : Iface) (hp : self.resource p = some r) : p ≠ "" := by
  intro h
  have := wf_last self hwf p r hp
  rw [h] at this
  simp at this

theorem wf_suffix_not_key {D : Type} (self : SimpleHandler D) (hwf : WellFormed self)
    (p s : String) (hne : s.data ≠ []) (hlast : s.data.getLast? ≠ some slash) :
    self.resource (p ++ s) = none := by
  cases h : self.resource (p ++ s) with
  | none => rfl
  | some r =>
    exfalso
    have := wf_last self hwf _ r h
    rw [String.data_append, List.getLast?_append_of_ne_nil _ hne] at this
    exact hlast this

theorem resolveRef_exact {D : Type} (self : SimpleHandler D) (path : String) (r : Iface)
    (h : self.resource path = some r) : resolveRef self path = (path, "", r) := by
  simp [resolveRef, h]

theorem resolveRef_split {D : Type} (self : SimpleHandler D) (p s : String) (r : Iface)
    (hnot : self.resource (p ++ s) = none) (hp : self.resource p = some r)
    (hlast : p.data.getLast? = some slash) (hs : slash ∉ s.data) :
    resolveRef self (p ++ s) = (p, s, r) := by
  have hsplit := splitLast_of_parts slash p.data s.data hlast hs
  simp only [resolveRef, hnot, String.data_append, hsplit]
  have hp1 : (⟨p.data⟩ : String) = p := rfl
  have hs1 : (⟨s.data⟩ : String) = s := rfl
  rw [hp1, hs1, hp]

theorem resolveRef_nomatch {D : Type} (self : SimpleHandler D) (path : String)
    (hexact : self.resource path = none)
    (hsplit : ∀ pre rest : String, path = pre ++ rest → pre.data.getLast? = some slash →
      slash ∉ rest.data → self.resource pre = none) :
    resolveRef self path = ("", "", none) := by
  simp only [resolveRef, hexact]
  cases hsp : splitLast slash path.data with
  | none => rfl
  | some pr =>
    obtain ⟨p, r⟩ := pr
    obtain ⟨h1, h2, h3⟩ := splitLast_spec slash path.data p r hsp
    have hpath : path = (⟨p⟩ : String) ++ ⟨r⟩ := by
      apply string_eq_of_data
      simp [String.data_append, h1]
    simp only [hsplit ⟨p⟩ ⟨r⟩ hpath h2 h3]

/-- The dispatcher, read off the reference resolver. -/
theorem Dispatch_of_resolveRef {D : Type} (self : SimpleHandler D) (method path : String)
    (header queryParams : StringMap) (m id : String) (res : Iface)
    (h : resolveRef self path = (m, id, res)) :
    Dispatch self method path header queryParams =
      if m = "" then ⟨[], some NotFound⟩
      else if method = "GET" then
        if id.data.length = 0 then
          match asIndexer res with
          | some resIndex => ⟨[Call.Index header queryParams], resIndex header queryParams⟩
          | none => ⟨[], some NotImplemented⟩
        else
          match ParseInt id with
          | .error _ => ⟨[], some (BadRequest "resource ids must be non-negative integers")⟩
          | .ok num =>
            match asFinder res with
            | some resFind =>
              ⟨[Call.Find num header queryParams], resFind num header queryParams⟩
            | none => ⟨[], some NotImplemented⟩
      else ⟨[], some ("", some ⟨501, "", "Not implemented yet"⟩)⟩ := by
  simp only [Dispatch, resolve_eq_resolveRef, h]

theorem resolveRef_cases {D : Type} (self : SimpleHandler D) (path : String) :
    resolveRef self path = ("", "", none) ∨
      ∃ m id r, resolveRef self path = (m, id, r) ∧ self.resource m = some r := by
  unfold resolveRef
  cases h1 : self.resource path with
  | some r => exact Or.inr ⟨path, "", r, rfl, h1⟩
  | none =>
    cases h2 : splitLast slash path.data with
    | none => exact Or.inl rfl
    | some pr =>
      obtain ⟨p, r⟩ := pr
      cases h3 : self.resource ⟨p⟩ with
      | none => simp [h3]
      | some res => exact Or.inr ⟨⟨p⟩, ⟨r⟩, res, by simp [h3], h3⟩

/-- A path whose split at the last separator gives an unregistered parent has
no registered parent at all. -/
theorem no_parent_of_splitLast {D : Type} (self : SimpleHandler D) (path : String)
    (p r : List Char) (hsp : splitLast slash path.data = some (p, r))
    (hres : self.resource ⟨p⟩ = none) :
    ∀ pre rest : String, path = pre ++ rest → pre.data.getLast? = some slash →
      slash ∉ rest.data → self.resource pre = none := by
  intro pre rest h1 h2 h3
  have h := splitLast_of_parts slash pre.data rest.data h2 h3
  rw [← String.data_append, ← h1, hsp] at h
  simp only [Option.some.injEq, Prod.mk.injEq] at h
  have hpre : (⟨p⟩ : String) = pre := string_eq_of_data _ _ h.1
  rw [← hpre]
  exact hres

/-- The dispatcher on a registered collection path followed by an identifier. -/
theorem Dispatch_item {D : Type} (self : SimpleHandler D) (hwf : WellFormed self)
    (method p s : String) (r : Iface) (header queryParams : StringMap)
    (hp : self.resource p = some r) (hne : s.data ≠ []) (hs : slash ∉ s.data) :
    Dispatch self method (p ++ s) header queryParams =
      if method = "GET" then
        match ParseInt s with
        | .error _ => ⟨[], some (BadRequest "resource ids must be non-negative integers")⟩
        | .ok num =>
          match asFinder r with
          | some resFind =>
            ⟨[Call.Find num header queryParams], resFind num header queryParams⟩
          | none => ⟨[], some NotImplemented⟩
      else ⟨[], some ("", some ⟨501, "", "Not implemented yet"⟩)⟩ := by
  have hlast : s.data.getLast? ≠ some slash := fun h => hs (List.mem_of_getLast?_eq_some h)
  have hnot := wf_suffix_not_key self hwf p s hne hlast
  have href := resolveRef_split self p s r hnot hp (wf_last self hwf p r hp) hs
  rw [Dispatch_of_resolveRef self method (p ++ s) header queryParams p s r href]
  have hpne := wf_ne_empty self hwf p r hp
  have hlen : ¬ s.data.length = 0 := fun h => hne (List.length_eq_zero.mp h)
  simp only [hpne, hlen, if_false]

/-- The dispatcher on a registered collection path. -/
theorem Dispatch_collection {D : Type} (self : SimpleHandler D) (hwf : WellFormed self)
    (method path : String) (r : Iface) (header queryParams : StringMap)
    (hp : self.resource path = some r) :
    Dispatch self method path header queryParams =
      if method = "GET" then
        match asIndexer r with
        | some resIndex => ⟨[Call.Index header queryParams], resIndex header queryParams⟩
        | none => ⟨[], some NotImplemented⟩
      else ⟨[], some ("", some ⟨501, "", "Not implemented yet"⟩)⟩ := by
  rw [Dispatch_of_resolveRef self method path header queryParams path "" r
    (resolveRef_exact self path r hp)]
  have hpne := wf_ne_empty self hwf path r hp
  simp [hpne]

/-! ## The dispatcher: claims -/

/-- C1: when neither the path nor its part up to and including the final
separator is a registry key, `Dispatch` returns the value of `NotFound()`, an
empty payload with an error of status 404, and invokes no capability, whatever
the method, the headers and the query are. -/
theorem C1_unregistered_path_not_found {D : Type} (self : SimpleHandler D)
    (method path : String) (header queryParams : StringMap)
    (hexact : self.resource path = none)
    (hparent : ∀ pre rest : String, path = pre ++ rest → pre.data.getLast? = some slash →
      slash ∉ rest.data → self.resource pre = none) :
    (Dispatch self method path header queryParams).ret = some NotFound ∧
      (Dispatch self method path header queryParams).calls = [] ∧
      NotFound = ("", some ⟨404, "", "Not found"⟩) := by
  rw [Dispatch_of_resolveRef self method path header queryParams "" "" none
    (resolveRef_nomatch self path hexact hparent)]
  exact ⟨rfl, rfl, rfl⟩

theorem C1_unregistered_path_not_found_witness :
    (Dispatch sampleHandler "DELETE" "/gadgets/7" [] []).ret = some NotFound ∧
      (Dispatch sampleHandler "DELETE" "/gadgets/7" [] []).calls = [] ∧
      NotFound = ("", some ⟨404, "", "Not found"⟩) :=
  C1_unregistered_path_not_found sampleHandler "DELETE" "/gadgets/7" [] [] rfl
    (no_parent_of_splitLast sampleHandler "/gadgets/7" "/gadgets/".data "7".data
      (by decide) rfl)

/-- C2: on a path that resolves to a registered resource, with or without an
identifier after the registered key, every method other than `GET` gets an
empty payload and an error of status 501, and no capability is invoked. -/
theorem C2_other_method_not_implemented {D : Type} (self : SimpleHandler D)
    (hwf : WellFormed self) (method p s : String) (r : Iface)
    (header queryParams : StringMap)
    (hp : self.resource p = some r) (hs : slash ∉ s.data) (hm : method ≠ "GET") :
    (Dispatch self method (p ++ s) header queryParams).ret =
        some ("", some ⟨501, "", "Not implemented yet"⟩) ∧
      (Dispatch self method (p ++ s) header queryParams).calls = [] := by
  by_cases hne : s.data = []
  · have hs0 : s = "" := string_eq_of_data _ _ hne
    subst hs0
    have hpp : p ++ "" = p := string_eq_of_data _ _ (by simp [String.data_append])
    rw [hpp, Dispatch_collection self hwf method p r header queryParams hp]
    simp [hm]
  · rw [Dispatch_item self hwf method p s r header queryParams hp hne hs]
    simp [hm]

theorem C2_other_method_not_implemented_witness :
    (Dispatch sampleHandler "POST" ("/widget/" ++ "3") [] []).ret =
        some ("", some ⟨501, "", "Not implemented yet"⟩) ∧
      (Dispatch sampleHandler "POST" ("/widget/" ++ "3") [] []).calls = [] :=
  C2_other_method_not_implemented sampleHandler wellFormed_sample "POST" "/widget/" "3"
    (some widgetFinder) [] [] rfl (by decide) (by decide)

/-- C3, at the failing input: the identifier `-3` is accepted by the parse, so
a `GET` of that identifier under `/widget/` invokes `Find` with the negative
identifier and returns what `Find` returned, not a `BadRequest`. -/
theorem C3_negative_identifier_reaches_find :
    ParseInt "-3" = .ok (-3) ∧
      Dispatch sampleHandler "GET" "/widget/-3" [] [] =
        ⟨[Call.Find (-3) [] []], some ("widget -3", none)⟩ :=
  ⟨rfl, rfl⟩

/-- C4 fails as stated: for `GET /widget/abc` the identifier `abc` does not
parse, and the message of the returned `BadRequest` does not contain `abc`. -/
theorem C4_message_does_not_name_value :
    ParseInt "abc" = .error .ErrSyntax ∧
      ∃ msg : String,
        (Dispatch sampleHandler "GET" "/widget/abc" [] []).ret =
          some ("", some ⟨400, "", msg⟩) ∧
        ¬ List.IsInfix "abc".data msg.data :=
  ⟨rfl, "BadRequest - resource ids must be non-negative integers ", rfl, by decide⟩

/-- C4, amended: for every registered path `p` and every identifier `s` that
fails to parse, `GET p+s` returns an empty payload and a status 400 error whose
message is the fixed text
`BadRequest - resource ids must be non-negative integers `, the same for every
`s`; no capability is invoked. -/
theorem C4_bad_request_message_fixed {D : Type} (self : SimpleHandler D)
    (hwf : WellFormed self) (p s : String) (r : Iface) (e : NumError)
    (header queryParams : StringMap)
    (hp : self.resource p = some r) (hne : s.data ≠ []) (hs : slash ∉ s.data)
    (hparse : ParseInt s = .error e) :
    Dispatch self "GET" (p ++ s) header queryParams =
      ⟨[], some ("", some ⟨400, "",
        "BadRequest - resource ids must be non-negative integers "⟩)⟩ := by
  rw [Dispatch_item self hwf "GET" p s r header queryParams hp hne hs]
  simp only [hparse, if_true]
  rfl

theorem C4_bad_request_message_fixed_witness :
    Dispatch sampleHandler "GET" ("/widget/" ++ "abc") [] [] =
      ⟨[], some ("", some ⟨400, "",
        "BadRequest - resource ids must be non-negative integers "⟩)⟩ :=
  C4_bad_request_message_fixed sampleHandler wellFormed_sample "/widget/" "abc"
    (some widgetFinder) .ErrSyntax [] [] rfl (by decide) (by decide) rfl

/-- The digit characters of `Nat.digitChar` are decimal digits with the right
value. -/
theorem digitChar_digit (k : Nat) (hk : k < 10) :
    isDecDigit (Nat.digitChar k) ∧ (Nat.digitChar k).toNat - 48 = k := by
  interval_cases k <;> decide

theorem decValFrom_append (m : Nat) (l1 l2 : List Char) :
    decValFrom m (l1 ++ l2) = decValFrom (decValFrom m l1) l2 := by
  simp [decValFrom, List.foldl_append]

theorem toDigitsCore_spec (fuel n : Nat) (acc : List Char) (hf : n < fuel) :
    ∃ L : List Char, Nat.toDigitsCore 10 fuel n acc = L ++ acc ∧ L ≠ [] ∧
      (∀ c ∈ L, isDecDigit c) ∧ ∀ m, decValFrom m L = m * 10 ^ L.length + n := by
  induction fuel generalizing n acc with
  | zero => omega
  | succ fuel ih =>
    have hd := digitChar_digit (n % 10) (Nat.mod_lt _ (by decide))
    by_cases h0 : n / 10 = 0
    · refine ⟨[Nat.digitChar (n % 10)], ?_, by simp, ?_, ?_⟩
      · simp [Nat.toDigitsCore, h0]
      · intro c hc
        simp at hc
        rw [hc]; exact hd.1
      · intro m
        have hlt : n < 10 := by omega
        have hmod : n % 10 = n := Nat.mod_eq_of_lt hlt
        rw [hmod] at hd ⊢
        simp [decValFrom, hd.2]
    · have hlt : n / 10 < fuel := by omega
      obtain ⟨L, h1, h2, h3, h4⟩ := ih (n / 10) (Nat.digitChar (n % 10) :: acc) hlt
      refine ⟨L ++ [Nat.digitChar (n % 10)], ?_, by simp, ?_, ?_⟩
      · simp [Nat.toDigitsCore, h0, h1]
      · intro c hc
        rcases List.mem_append.mp hc with hc | hc
        · exact h3 c hc
        · simp at hc; rw [hc]; exact hd.1
      · intro m
        rw [decValFrom_append, h4 m]
        simp only [decValFrom, List.foldl_cons, List.foldl_nil, hd.2, List.length_append,
          List.length_singleton, pow_succ]
        nlinarith [Nat.div_add_mod n 10]

/-- The decimal numeral of a natural number is a non-empty run of digits with
that value. -/
theorem repr_spec (n : Nat) :
    (Nat.repr n).data ≠ [] ∧ (∀ c ∈ (Nat.repr n).data, isDecDigit c) ∧
      decVal (Nat.repr n).data = n := by
  obtain ⟨L, h1, h2, h3, h4⟩ := toDigitsCore_spec (n + 1) n [] (by omega)
  have hdata : (Nat.repr n).data = L := by
    simp [Nat.repr, Nat.toDigits, h1, List.asString]
  rw [hdata]
  refine ⟨h2, h3, ?_⟩
  have := h4 0
  simpa [decVal] using this

/-- A `GET` of a registered key followed by a run of digits `ds`, with a minus
sign when `neg`, whose value is in the `int64` range: one call of `Find` with
that value, and its result handed back. -/
theorem Dispatch_find_digits {D : Type} (self : SimpleHandler D)
    (hwf : WellFormed self) (key : String) (resF : Resource)
    (find : Id → StringMap → StringMap → Option Reply)
    (ds : List Char) (neg : Bool) (h q : StringMap)
    (hkey : self.resource key = some (some resF)) (hfind : resF.Find = some find)
    (hne : ds ≠ []) (hd : ∀ c ∈ ds, isDecDigit c)
    (hrange : if neg then decVal ds ≤ 2 ^ 63 else decVal ds < 2 ^ 63) :
    Dispatch self "GET" (key ++ ⟨(if neg then ['-'] else []) ++ ds⟩) h q =
      ⟨[Call.Find (if neg then - (decVal ds : Int) else (decVal ds : Int)) h q],
        find (if neg then - (decVal ds : Int) else (decVal ds : Int)) h q⟩ := by
  have hslash : ¬ isDecDigit slash := by decide
  have hds : slash ∉ ds := fun hmem => hslash (hd _ hmem)
  cases neg with
  | false =>
    simp only [Bool.false_eq_true, if_false, List.nil_append] at hrange ⊢
    rw [Dispatch_item self hwf "GET" key ⟨ds⟩ (some resF) h q hkey hne hds]
    simp [ParseInt_digits ⟨ds⟩ hne hd hrange, asFinder, hfind]
  | true =>
    simp only [if_true, List.singleton_append] at hrange ⊢
    have hmem : slash ∉ ('-' :: ds) := by
      intro hm
      rcases List.mem_cons.mp hm with hm1 | hm1
      · revert hm1; decide
      · exact hds hm1
    rw [Dispatch_item self hwf "GET" key ⟨'-' :: ds⟩ (some resF) h q hkey (by simp) hmem]
    simp [ParseInt_neg_digits ds hne hd hrange, asFinder, hfind]

/-- A `GET` of a registered key followed by the decimal numeral of an integer
in the `int64` range: one call of `Find` with that integer, and its result
handed back. -/
theorem Dispatch_find_numeral {D : Type} (self : SimpleHandler D)
    (hwf : WellFormed self) (key : String) (resF : Resource)
    (find : Id → StringMap → StringMap → Option Reply) (n : Int) (h q : StringMap)
    (hkey : self.resource key = some (some resF)) (hfind : resF.Find = some find)
    (hlo : -(2 ^ 63) ≤ n) (hhi : n < 2 ^ 63) :
    Dispatch self "GET" (key ++ toString n) h q = ⟨[Call.Find n h q], find n h q⟩ := by
  cases n with
  | ofNat m =>
    obtain ⟨h1, h2, h3⟩ := repr_spec m
    have hr : decVal (Nat.repr m).data < 2 ^ 63 := by
      rw [h3]
      have : (m : Int) < 2 ^ 63 := hhi
      exact_mod_cast this
    have := Dispatch_find_digits self hwf key resF find (Nat.repr m).data false h q
      hkey hfind h1 h2 (by simpa using hr)
    simp only [Bool.false_eq_true, if_false, List.nil_append, h3] at this
    exact this
  | negSucc m =>
    obtain ⟨h1, h2, h3⟩ := repr_spec (m + 1)
    have hr : decVal (Nat.repr (m + 1)).data ≤ 2 ^ 63 := by
      rw [h3]
      have h4 : -(2 ^ 63 : Int) ≤ Int.negSucc m := hlo
      rw [Int.negSucc_eq] at h4
      have h5 : ((m : Int) + 1) ≤ 2 ^ 63 := by linarith
      exact_mod_cast h5
    have := Dispatch_find_digits self hwf key resF find (Nat.repr (m + 1)).data true h q
      hkey hfind h1 h2 (by simpa using hr)
    simp only [if_true, List.singleton_append, h3] at this
    have hs : toString (Int.negSucc m) = ⟨'-' :: (Nat.repr (m + 1)).data⟩ := by
      apply string_eq_of_data
      rfl
    have hv : -(((m + 1 : Nat) : Int)) = Int.negSucc m := by
      rw [Int.negSucc_eq]; push_cast; ring
    rw [hs, ← hv]
    exact this

/-- C5: `Dispatch` is pass-through for `GET`, in each of its two forms by
itself.  Whenever the path is a registry key whose resource implements
`Indexer`, it makes the one call `Index(h, q)` and returns exactly what that
call returned.  Whenever the path is a key, whose resource implements
`Finder`, followed by the decimal form of an integer `n` in the `int64` range,
it makes the one call `Find(Id(n), h, q)` and returns exactly what that call
returned, with the same two maps. -/
theorem C5_get_is_pass_through {D : Type} (self : SimpleHandler D)
    (hwf : WellFormed self) (h q : StringMap) :
    (∀ (path : String) (resI : Resource)
        (index : StringMap → StringMap → Option Reply),
        self.resource path = some (some resI) → resI.Index = some index →
        Dispatch self "GET" path h q = ⟨[Call.Index h q], index h q⟩) ∧
      (∀ (key : String) (resF : Resource)
        (find : Id → StringMap → StringMap → Option Reply) (n : Int),
        self.resource key = some (some resF) → resF.Find = some find →
        -(2 ^ 63) ≤ n → n < 2 ^ 63 →
        Dispatch self "GET" (key ++ toString n) h q = ⟨[Call.Find n h q], find n h q⟩) := by
  constructor
  · intro path resI index hpath hindex
    rw [Dispatch_collection self hwf "GET" path (some resI) h q hpath]
    simp [asIndexer, hindex]
  · intro key resF find n hkey hfind hlo hhi
    exact Dispatch_find_numeral self hwf key resF find n h q hkey hfind hlo hhi

theorem C5_get_is_pass_through_witness :
    Dispatch listerOnlyHandler "GET" "/widgets/" [("Prefix", "T")] [("max", "2")] =
        ⟨[Call.Index [("Prefix", "T")] [("max", "2")]], some ("all widgets", none)⟩ ∧
      Dispatch finderOnlyHandler "GET" ("/widget/" ++ toString (42 : Int))
          [("Prefix", "T")] [("max", "2")] =
        ⟨[Call.Find 42 [("Prefix", "T")] [("max", "2")]], some ("widget 42", none)⟩ :=
  ⟨(C5_get_is_pass_through listerOnlyHandler wellFormed_listerOnly
      [("Prefix", "T")] [("max", "2")]).1 "/widgets/" widgetIndexer
      (fun _ _ => some ("all widgets", none)) rfl rfl,
   (C5_get_is_pass_through finderOnlyHandler wellFormed_finderOnly
      [("Prefix", "T")] [("max", "2")]).2 "/widget/" widgetFinder
      (fun id _ _ => some ("widget " ++ toString id, none)) 42 rfl rfl
      (by decide) (by decide)⟩

/-- C6: a `GET` that resolves to a registered resource lacking the capability
its path shape needs returns the value of `NotImplemented()`, an empty payload
with status 501, and does not fail, in each of the two cases by itself:
(a) whenever the path is a registry key and the resource is no `Indexer`;
(b) whenever the path is a key followed by a text that parses as a base-10
integer and the resource is no `Finder`, as for a handler that holds only a
lister. -/
theorem C6_missing_capability_not_implemented {D : Type} (self : SimpleHandler D)
    (hwf : WellFormed self) (h q : StringMap) :
    (∀ (path : String) (rI : Iface),
        self.resource path = some rI → asIndexer rI = none →
        Dispatch self "GET" path h q = ⟨[], some NotImplemented⟩) ∧
      (∀ (key s : String) (rF : Iface) (n : Int),
        self.resource key = some rF → asFinder rF = none → ParseInt s = .ok n →
        Dispatch self "GET" (key ++ s) h q = ⟨[], some NotImplemented⟩) ∧
      NotImplemented = ("", some ⟨501, "", "Not implemented"⟩) := by
  refine ⟨?_, ?_, rfl⟩
  · intro path rI hpath hnoIndex
    rw [Dispatch_collection self hwf "GET" path rI h q hpath]
    simp [hnoIndex]
  · intro key s rF n hkey hnoFind hparse
    obtain ⟨hne, hs, _⟩ := ParseInt_ok_shape s n hparse
    rw [Dispatch_item self hwf "GET" key s rF h q hkey hne hs]
    simp [hparse, hnoFind]

theorem C6_missing_capability_not_implemented_witness :
    Dispatch finderOnlyHandler "GET" "/widget/" [] [] = ⟨[], some NotImplemented⟩ ∧
      Dispatch listerOnlyHandler "GET" ("/widgets/" ++ "3") [] [] =
        ⟨[], some NotImplemented⟩ ∧
      NotImplemented = ("", some ⟨501, "", "Not implemented"⟩) :=
  ⟨(C6_missing_capability_not_implemented finderOnlyHandler wellFormed_finderOnly
      [] []).1 "/widget/" (some widgetFinder) rfl rfl,
   (C6_missing_capability_not_implemented listerOnlyHandler wellFormed_listerOnly
      [] []).2.1 "/widgets/" "3" (some widgetIndexer) 3 rfl rfl rfl,
   rfl⟩

/-- C7: `resolve` computes the reference resolver on every registry and every
path, without panicking: exact match first, then the split at the final
separator, else the no-match triple.  An exact match wins over the split form
(a path that is itself registered resolves to itself with no identifier), and
the matched key and identifier do not depend on what the registered values
are, only on which keys are registered. -/
theorem C7_resolve_refines_reference {D : Type} (self : SimpleHandler D) (path : String)
    (r : Iface) (f : Iface → Iface) :
    resolve self path = some (resolveRef self path) ∧
      resolve { self with resource := mapSet self.resource path r } path =
        some (path, "", r) ∧
      (resolve { self with resource := fun k => (self.resource k).map f } path).map
          (fun t => (t.1, t.2.1)) =
        (resolve self path).map (fun t => (t.1, t.2.1)) := by
  refine ⟨resolve_eq_resolveRef self path, ?_, ?_⟩
  · rw [resolve_eq_resolveRef]
    simp [resolveRef, mapSet]
  · rw [resolve_eq_resolveRef, resolve_eq_resolveRef]
    simp only [resolveRef, Option.map_some']
    cases self.resource path with
    | some x => rfl
    | none =>
      simp only [Option.map_none']
      cases splitLast slash path.data with
      | none => rfl
      | some pr =>
        obtain ⟨p1, r1⟩ := pr
        simp only
        cases self.resource ⟨p1⟩ <;> rfl

theorem wrapped_ne_empty (t : String) : "/" ++ t ++ "/" ≠ "" := by
  intro h
  have := getLast_wrap t
  rw [h] at this
  simp at this

theorem muxHandle_fresh (mux : List String) (t : String) (h : "/" ++ t ++ "/" ∉ mux) :
    muxHandle mux ("/" ++ t ++ "/") = some (mux ++ ["/" ++ t ++ "/"]) := by
  simp [muxHandle, wrapped_ne_empty, h]

/-- C8 fails as stated: on the sample handler the pattern `/widget/` is already
registered with the mux, so the call panics in its first half; the registry it
leaves has no entry for the plural key, which the stated update would hold. -/
theorem C8_registration_panics_on_registered_pattern :
    ∃ s, AddFindAndIndex asciiLower sampleHandler "Widget" (some widgetFinder)
          "Gadgets" (some widgetIndexer) emptyDoc = .panicked s ∧
      s.resource "/gadgets/" = none ∧
      (mapSet (mapSet sampleHandler.resource ("/" ++ asciiLower "Widget" ++ "/")
          (some widgetFinder)) ("/" ++ asciiLower "Gadgets" ++ "/") (some widgetIndexer))
        "/gadgets/" = some (some widgetIndexer) :=
  ⟨_, rfl, rfl, rfl⟩

/-- C8, amended: when the mux accepts the patterns (the key of a non-empty
singular is not registered with it yet, the key of a non-empty plural is not
registered yet either and differs from the key of the singular), the call
returns, and the registry after it is the registry before, updated first with
`"/" + lower(singular) + "/" -> finder` when `singular` is not empty and then
with `"/" + lower(plural) + "/" -> indexer` when `plural` is not empty.  Read
key by key: the plural key holds the indexer, else the singular key holds the
finder, else the key is as before.  With both names empty the call returns
and changes nothing. -/
theorem C8_registration_updates_registry {D : Type} (ToLower : String → String)
    (self : SimpleHandler D) (singular : String) (finder : Iface) (plural : String)
    (indexer : Iface) (d : ResourceDoc D) (k : String)
    (hs : singular ≠ "" → "/" ++ ToLower singular ++ "/" ∉ self.mux)
    (hp : plural ≠ "" → "/" ++ ToLower plural ++ "/" ∉ self.mux)
    (hd : singular ≠ "" → plural ≠ "" →
      "/" ++ ToLower plural ++ "/" ≠ "/" ++ ToLower singular ++ "/") :
    (∃ s1, AddFindAndIndex ToLower self singular finder plural indexer d = .returned s1 ∧
        s1.resource =
          (let r1 := if singular ≠ "" then
              mapSet self.resource ("/" ++ ToLower singular ++ "/") finder
            else self.resource
           if plural ≠ "" then mapSet r1 ("/" ++ ToLower plural ++ "/") indexer else r1) ∧
        s1.resource k =
          (if plural ≠ "" ∧ k = "/" ++ ToLower plural ++ "/" then some indexer
           else if singular ≠ "" ∧ k = "/" ++ ToLower singular ++ "/" then some finder
           else self.resource k)) ∧
      AddFindAndIndex ToLower self "" finder "" indexer d = .returned self := by
  refine ⟨?_, by simp [AddFindAndIndex]⟩
  unfold AddFindAndIndex
  by_cases h1 : singular = "" <;> by_cases h2 : plural = ""
  · exact ⟨self, by simp [h1, h2], by simp [h1, h2], by simp [h1, h2]⟩
  · have hm := muxHandle_fresh self.mux (ToLower plural) (hp h2)
    simp only [h1, h2, ne_eq, not_true_eq_false, not_false_eq_true, if_true, if_false, hm]
    refine ⟨_, rfl, ?_, ?_⟩
    · simp
    · simp [mapSet]
  · have hm := muxHandle_fresh self.mux (ToLower singular) (hs h1)
    simp only [h1, h2, ne_eq, not_true_eq_false, not_false_eq_true, if_true, if_false, hm]
    refine ⟨_, rfl, ?_, ?_⟩
    · simp
    · simp [mapSet]
  · have hm := muxHandle_fresh self.mux (ToLower singular) (hs h1)
    have hnot : "/" ++ ToLower plural ++ "/" ∉
        self.mux ++ ["/" ++ ToLower singular ++ "/"] := by
      simp only [List.mem_append, List.mem_singleton, not_or]
      exact ⟨hp h2, hd h1 h2⟩
    have hm2 := muxHandle_fresh _ (ToLower plural) hnot
    simp only [h1, h2, ne_eq, not_true_eq_false, not_false_eq_true, if_true, if_false, hm,
      hm2]
    refine ⟨_, rfl, ?_, ?_⟩
    · simp
    · simp [mapSet]

theorem C8_registration_updates_registry_witness :
    (∃ s1, AddFindAndIndex asciiLower (NewSimpleHandler Unit) "Widget" (some widgetFinder)
          "Widgets" (some widgetIndexer) emptyDoc = .returned s1 ∧
        s1.resource =
          (let r1 := if "Widget" ≠ "" then
              mapSet (NewSimpleHandler Unit).resource ("/" ++ asciiLower "Widget" ++ "/")
                (some widgetFinder)
            else (NewSimpleHandler Unit).resource
           if "Widgets" ≠ "" then
             mapSet r1 ("/" ++ asciiLower "Widgets" ++ "/") (some widgetIndexer)
           else r1) ∧
        s1.resource "/widget/" =
          (if "Widgets" ≠ "" ∧ "/widget/" = "/" ++ asciiLower "Widgets" ++ "/" then
             some (some widgetIndexer)
           else if "Widget" ≠ "" ∧ "/widget/" = "/" ++ asciiLower "Widget" ++ "/" then
             some (some widgetFinder)
           else (NewSimpleHandler Unit).resource "/widget/")) ∧
      AddFindAndIndex asciiLower (NewSimpleHandler Unit) "" (some widgetFinder) ""
        (some widgetIndexer) emptyDoc = .returned (NewSimpleHandler Unit) :=
  C8_registration_updates_registry asciiLower (NewSimpleHandler Unit) "Widget"
    (some widgetFinder) "Widgets" (some widgetIndexer) emptyDoc "/widget/"
    (fun _ => by simp [NewSimpleHandler]) (fun _ => by simp [NewSimpleHandler])
    (fun _ _ => by decide)

/-- The dispatcher returns a value unless the capability it invoked did not
return. -/
theorem Dispatch_returns {D : Type} (self : SimpleHandler D) (method path : String)
    (h q : StringMap) :
    (Dispatch self method path h q).ret.isSome ∨
      ∃ key res, self.resource key = some (some res) ∧
        ((∃ f, res.Index = some f ∧ f h q = none ∧
            (Dispatch self method path h q).calls = [Call.Index h q]) ∨
          (∃ g id, res.Find = some g ∧ g id h q = none ∧
            (Dispatch self method path h q).calls = [Call.Find id h q])) := by
  rcases resolveRef_cases self path with hno | ⟨m, id, r0, href, hreg⟩
  · rw [Dispatch_of_resolveRef self method path h q "" "" none hno]
    exact Or.inl rfl
  · rw [Dispatch_of_resolveRef self method path h q m id r0 href]
    by_cases hm : m = ""
    · simp [hm]
    · by_cases hg : method = "GET"
      · by_cases hid : id.data.length = 0
        · simp only [hm, hg, hid, if_true, if_false]
          cases r0 with
          | none => exact Or.inl rfl
          | some res =>
            cases hI : res.Index with
            | none => simp [asIndexer, hI]
            | some f =>
              simp only [asIndexer, hI]
              cases hf : f h q with
              | some v => exact Or.inl rfl
              | none => exact Or.inr ⟨m, res, hreg, Or.inl ⟨f, hI, hf, trivial⟩⟩
        · simp only [hm, hg, hid, if_true, if_false]
          cases ParseInt id with
          | error e => exact Or.inl rfl
          | ok num =>
            cases r0 with
            | none => exact Or.inl rfl
            | some res =>
              cases hF : res.Find with
              | none => simp [asFinder, hF]
              | some g =>
                simp only [asFinder, hF]
                cases hg2 : g num h q with
                | some v => exact Or.inl rfl
                | none => exact Or.inr ⟨m, res, hreg, Or.inr ⟨g, num, hF, hg2, rfl⟩⟩
      · simp [hm, hg]

/-- C9: `resolve` and `Dispatch` are total.  For every path `resolve` returns
a triple (no slice is out of range); for a registered path `p` and a run of
digits `s` whose value is beyond the `int64` range, `GET p+s` returns the
status 400 `BadRequest` with no capability call, neither failing nor wrapping
around; and `Dispatch` returns a pair on every request unless the one
capability it invoked did not return. -/
theorem C9_resolver_and_dispatcher_total {D : Type} (self : SimpleHandler D)
    (hwf : WellFormed self) (method path p s : String) (r : Iface) (h q : StringMap)
    (hp : self.resource p = some r) (hne : s.data ≠ [])
    (hd : ∀ c ∈ s.data, isDecDigit c) (hbig : 2 ^ 63 ≤ decVal s.data) :
    (resolve self path).isSome ∧
      Dispatch self "GET" (p ++ s) h q =
        ⟨[], some ("", some ⟨400, "",
          "BadRequest - resource ids must be non-negative integers "⟩)⟩ ∧
      ((Dispatch self method path h q).ret.isSome ∨
        ∃ key res, self.resource key = some (some res) ∧
          ((∃ f, res.Index = some f ∧ f h q = none ∧
              (Dispatch self method path h q).calls = [Call.Index h q]) ∨
            (∃ g id, res.Find = some g ∧ g id h q = none ∧
              (Dispatch self method path h q).calls = [Call.Find id h q]))) := by
  refine ⟨by simp [resolve_eq_resolveRef], ?_, Dispatch_returns self method path h q⟩
  have hslash : ¬ isDecDigit slash := by decide
  have hs : slash ∉ s.data := fun hmem => hslash (hd _ hmem)
  rw [Dispatch_item self hwf "GET" p s r h q hp hne hs]
  simp only [ParseInt_digits_overflow s hne hd hbig, if_true]
  rfl

theorem C9_resolver_and_dispatcher_total_witness :
    (resolve sampleHandler "").isSome ∧
      Dispatch sampleHandler "GET" ("/widget/" ++ "9223372036854775808") [] [] =
        ⟨[], some ("", some ⟨400, "",
          "BadRequest - resource ids must be non-negative integers "⟩)⟩ ∧
      ((Dispatch sampleHandler "GET" "" [] []).ret.isSome ∨
        ∃ key res, sampleHandler.resource key = some (some res) ∧
          ((∃ f, res.Index = some f ∧ f [] [] = none ∧
              (Dispatch sampleHandler "GET" "" [] []).calls = [Call.Index [] []]) ∨
            (∃ g id, res.Find = some g ∧ g id [] [] = none ∧
              (Dispatch sampleHandler "GET" "" [] []).calls = [Call.Find id [] []]))) :=
  C9_resolver_and_dispatcher_total sampleHandler wellFormed_sample "GET" "" "/widget/"
    "9223372036854775808" (some widgetFinder) [] [] rfl (by decide) (by decide) (by decide)

/-! ## The pump: claims -/

/-- A panic that carries a non-nil value `x` (rendered as `text`), raised by the
translation of the request or by `target.ProcessRequest`, is turned into the
500 page: status 500, message `Internal Server Error`, body `Panic: <x>`
followed by a newline, and a content length equal to the length of that body;
the main loop sends this response on `Out` and goes on. -/
theorem panic_value_becomes_500_page (lib : GoLib) (rt : RouteTest) (target : Httpified)
    (sd : Chan) (req : HttpRequest) (rest : List HttpRequest) (text : String)
    (hpanic : m2ToHttp lib req = .error (.value text) ∨
      ∃ r, m2ToHttp lib req = .ok r ∧ target.ProcessRequest r = .error (.value text))
    (hroute : target.Name ≠ goLookup req.Header (lib.ToLower rt.route_test_header)) :
    protectedProcessRequest lib req target =
        some { StatusCode := 500
               StatusMsg := "Internal Server Error"
               ContentLength := (("Panic: " ++ text ++ "\n").utf8ByteSize : Int)
               Body := some ("Panic: " ++ text ++ "\n") } ∧
      runHttp lib rt target sd (req :: rest) =
        Event.Guarded req
          :: Event.Send { StatusCode := 500
                          StatusMsg := "Internal Server Error"
                          ContentLength := (("Panic: " ++ text ++ "\n").utf8ByteSize : Int)
                          Body := some ("Panic: " ++ text ++ "\n") }
          :: runHttp lib rt target sd rest := by
  have hp : protectedProcessRequest lib req target = some (panicPage text) := by
    unfold protectedProcessRequest processRequestBody
    rcases hpanic with h1 | ⟨r, h1, h2⟩
    · simp [h1]
    · simp [h1, h2]
  refine ⟨hp, ?_⟩
  simp only [runHttp, hroute, if_false, hp]
  rfl

/-- C10, at the failing input: the sample target panics with a nil value on the
path `/nil`.  The guard `x != nil` of the deferred function does not fire, so
the guarded call returns the nil response instead of a 500 page, and the main
loop answers with the `shutting down` acknowledgement and closes the shutdown
channel, as if the target had asked for a shutdown. -/
theorem C10_nil_panic_is_taken_for_a_shutdown_request :
    (∃ r, m2ToHttp sampleLib (sampleRequest "/nil") = .ok r ∧
        sampleTarget.ProcessRequest r = .error .nil) ∧
      protectedProcessRequest sampleLib (sampleRequest "/nil") sampleTarget = none ∧
      runHttp sampleLib sampleRouteTest sampleTarget .isOpen
          [sampleRequest "/nil", sampleRequest "/ok"] =
        [Event.Guarded (sampleRequest "/nil"),
         Event.Send { StatusCode := 200, StatusMsg := "shutting down" },
         Event.CloseShutdown,
         Event.Guarded (sampleRequest "/ok"),
         Event.Send { ServerId := "srv", ClientId := [7], StatusCode := 200,
                      StatusMsg := "200 OK", ContentLength := 2, Body := some "ok" },
         Event.CloseOut] :=
  ⟨⟨_, rfl, rfl⟩, by decide, by decide⟩

/-! ## Shutdown and the main loop: claims -/

theorem sentOn_append (a b : List Event) : sentOn (a ++ b) = sentOn a ++ sentOn b := by
  induction a with
  | nil => rfl
  | cons e rest ih => cases e <;> simp [sentOn, ih]

/-- Every run of the main loop either ends with the one `CloseOut`, after a
part without `CloseOut` that holds one send for each request received, or
dies by a panic without any `CloseOut`. -/
theorem runHttp_shape (lib : GoLib) (rt : RouteTest) (target : Httpified)
    (reqs : List HttpRequest) (sd : Chan) :
    (∃ pre, runHttp lib rt target sd reqs = pre ++ [Event.CloseOut] ∧
        Event.CloseOut ∉ pre ∧ (sentOn pre).length = reqs.length) ∨
      (∃ pre, runHttp lib rt target sd reqs = pre ++ [Event.Panic] ∧
        Event.CloseOut ∉ pre) := by
  induction reqs generalizing sd with
  | nil => exact Or.inl ⟨[], rfl, by simp, rfl⟩
  | cons req rest ih =>
    by_cases hp : target.Name = goLookup req.Header (lib.ToLower rt.route_test_header)
    · rcases ih sd with ⟨pre, h1, h2, h3⟩ | ⟨pre, h1, h2⟩
      · refine Or.inl ⟨Event.Send (routeTestResponse rt req target) :: pre, ?_, ?_, ?_⟩
        · simp [runHttp, hp, h1]
        · simp [h2]
        · simp [sentOn, h3]
      · refine Or.inr ⟨Event.Send (routeTestResponse rt req target) :: pre, ?_, ?_⟩
        · simp [runHttp, hp, h1]
        · simp [h2]
    · cases hr : protectedProcessRequest lib req target with
      | none =>
        cases sd with
        | isClosed =>
          refine Or.inr ⟨[Event.Guarded req,
            Event.Send { StatusCode := 200, StatusMsg := "shutting down" }], ?_, ?_⟩
          · simp [runHttp, hp, hr, closeChan]
          · simp
        | isOpen =>
          rcases ih .isClosed with ⟨pre, h1, h2, h3⟩ | ⟨pre, h1, h2⟩
          · refine Or.inl ⟨Event.Guarded req
              :: Event.Send { StatusCode := 200, StatusMsg := "shutting down" }
              :: Event.CloseShutdown :: pre, ?_, ?_, ?_⟩
            · simp [runHttp, hp, hr, closeChan, h1]
            · simp [h2]
            · simp [sentOn, h3]
          · refine Or.inr ⟨Event.Guarded req
              :: Event.Send { StatusCode := 200, StatusMsg := "shutting down" }
              :: Event.CloseShutdown :: pre, ?_, ?_⟩
            · simp [runHttp, hp, hr, closeChan, h1]
            · simp [h2]
      | some resp =>
        rcases ih sd with ⟨pre, h1, h2, h3⟩ | ⟨pre, h1, h2⟩
        · refine Or.inl ⟨Event.Guarded req :: Event.Send resp :: pre, ?_, ?_, ?_⟩
          · simp [runHttp, hp, hr, h1]
          · simp [h2]
          · simp [sentOn, h3]
        · refine Or.inr ⟨Event.Guarded req :: Event.Send resp :: pre, ?_, ?_⟩
          · simp [runHttp, hp, hr, h1]
          · simp [h2]

/-- C11: `Shutdown` of `m2conn.go` closes `In` and nothing else.  On a runner
whose `In` is open it returns with `In` closed and `Out` as it was; on a
runner whose `In` is nil it returns the runner unchanged; whenever it returns,
`Out` is as it was; on a started runner `In` is closed and `Out` is open. -/
theorem C11_shutdown_closes_only_in (self : httpRunnerDefault) (out : Option Chan) :
    httpRunnerDefault.Shutdown { In := some .isOpen, Out := out } =
        some { In := some .isClosed, Out := out } ∧
      httpRunnerDefault.Shutdown { In := none, Out := out } =
        some { In := none, Out := out } ∧
      (httpRunnerDefault.Shutdown self).map (fun s => s.Out) =
        (httpRunnerDefault.Shutdown self).map (fun _ => self.Out) ∧
      httpRunnerDefault.Shutdown (httpRunnerDefault.start self) =
        some { In := some .isClosed, Out := some .isOpen } := by
  refine ⟨rfl, rfl, ?_, rfl⟩
  obtain ⟨i, o⟩ := self
  cases i with
  | none => rfl
  | some c => cases c <;> rfl

/-- C12: when the receive finds `In` closed the loop only closes `Out`: no
call of the target, no send.  Over every run `Out` is closed at most once, and
only at the very end: either the run ends with the one `close(Out)`, and what
comes before holds no `close(Out)` and one send for each request received, or
the loop died by a panic and never closed `Out`.  `Shutdown`, the other party,
leaves `Out` as it is. -/
theorem C12_out_closed_at_most_once_at_the_end (lib : GoLib) (rt : RouteTest)
    (target : Httpified) (reqs : List HttpRequest) (sd : Chan)
    (self : httpRunnerDefault) :
    runHttp lib rt target sd [] = [Event.CloseOut] ∧
      ((∃ pre, runHttp lib rt target sd reqs = pre ++ [Event.CloseOut] ∧
          Event.CloseOut ∉ pre ∧ (sentOn pre).length = reqs.length) ∨
        (∃ pre, runHttp lib rt target sd reqs = pre ++ [Event.Panic] ∧
          Event.CloseOut ∉ pre)) ∧
      List.count Event.CloseOut (runHttp lib rt target sd reqs) ≤ 1 ∧
      (httpRunnerDefault.Shutdown self).map (fun s => s.Out) =
        (httpRunnerDefault.Shutdown self).map (fun _ => self.Out) := by
  refine ⟨by cases sd <;> rfl, runHttp_shape lib rt target reqs sd, ?_, ?_⟩
  · rcases runHttp_shape lib rt target reqs sd with ⟨pre, h1, h2, _⟩ | ⟨pre, h1, h2⟩
    · rw [h1, List.count_append, List.count_eq_zero_of_not_mem h2]
      decide
    · rw [h1, List.count_append, List.count_eq_zero_of_not_mem h2]
      decide
  · obtain ⟨i, o⟩ := self
    cases i with
    | none => rfl
    | some c => cases c <;> rfl

/-- C13 fails as stated: after the target of the sample asked for a shutdown
on the first request, the loop sends the acknowledgement, closes the shutdown
channel, and then receives the second request and hands it to the target. -/
theorem C13_loop_goes_on_after_shutdown_request :
    (∃ r, m2ToHttp sampleLib (sampleRequest "/quit") = .ok r ∧
        quitTarget.ProcessRequest r = .ok none) ∧
      runHttp sampleLib sampleRouteTest quitTarget .isOpen
          [sampleRequest "/quit", sampleRequest "/ok"] =
        [Event.Guarded (sampleRequest "/quit"),
         Event.Send { StatusCode := 200, StatusMsg := "shutting down" },
         Event.CloseShutdown,
         Event.Guarded (sampleRequest "/ok"),
         Event.Send { ServerId := "srv", ClientId := [7], StatusCode := 200,
                      StatusMsg := "200 OK", ContentLength := 2, Body := some "ok" },
         Event.CloseOut] :=
  ⟨⟨_, rfl, rfl⟩, by decide⟩

/-- C13, amended: when `ProcessRequest` returns the nil response for a request
that is not a route test, while the shutdown channel is still open, the loop
sends exactly one acknowledgement (status 200, message `shutting down`) on
`Out`, closes the shutdown channel, and does not end by itself: it goes round
the loop again, now with the shutdown channel closed.  If the next receive
finds `In` closed it closes `Out` and returns; a request delivered before that
is received, and handed to the guarded call unless it is a route test. -/
theorem C13_shutdown_request_acknowledged (lib : GoLib) (rt : RouteTest)
    (target : Httpified) (req : HttpRequest) (rest : List HttpRequest)
    (hsentinel : ∃ r, m2ToHttp lib req = .ok r ∧ target.ProcessRequest r = .ok none)
    (hroute : ¬ isRouteTest lib rt target req) :
    runHttp lib rt target .isOpen (req :: rest) =
        Event.Guarded req
          :: Event.Send { StatusCode := 200, StatusMsg := "shutting down" }
          :: Event.CloseShutdown :: runHttp lib rt target .isClosed rest ∧
      runHttp lib rt target .isOpen [req] =
        [Event.Guarded req,
         Event.Send { StatusCode := 200, StatusMsg := "shutting down" },
         Event.CloseShutdown, Event.CloseOut] ∧
      ∀ (req2 : HttpRequest) (rest2 : List HttpRequest),
        ¬ isRouteTest lib rt target req2 →
        ∃ tail, runHttp lib rt target .isOpen (req :: req2 :: rest2) =
          Event.Guarded req
            :: Event.Send { StatusCode := 200, StatusMsg := "shutting down" }
            :: Event.CloseShutdown :: Event.Guarded req2 :: tail := by
  obtain ⟨r, h1, h2⟩ := hsentinel
  have hp : protectedProcessRequest lib req target = none := by
    simp [protectedProcessRequest, processRequestBody, h1, h2]
  unfold isRouteTest at hroute
  refine ⟨?_, ?_, ?_⟩
  · simp [runHttp, hroute, hp, closeChan]
  · simp [runHttp, hroute, hp, closeChan]
  · intro req2 rest2 hroute2
    unfold isRouteTest at hroute2
    cases hp2 : protectedProcessRequest lib req2 target with
    | none => exact ⟨_, by simp [runHttp, hroute, hroute2, hp, hp2, closeChan]; rfl⟩
    | some resp => exact ⟨_, by simp [runHttp, hroute, hroute2, hp, hp2, closeChan]; rfl⟩

theorem C13_shutdown_request_acknowledged_witness :
    runHttp sampleLib sampleRouteTest quitTarget .isOpen
          [sampleRequest "/quit", sampleRequest "/ok"] =
        Event.Guarded (sampleRequest "/quit")
          :: Event.Send { StatusCode := 200, StatusMsg := "shutting down" }
          :: Event.CloseShutdown
          :: runHttp sampleLib sampleRouteTest quitTarget .isClosed [sampleRequest "/ok"] ∧
      runHttp sampleLib sampleRouteTest quitTarget .isOpen [sampleRequest "/quit"] =
        [Event.Guarded (sampleRequest "/quit"),
         Event.Send { StatusCode := 200, StatusMsg := "shutting down" },
         Event.CloseShutdown, Event.CloseOut] ∧
      ∃ tail, runHttp sampleLib sampleRouteTest quitTarget .isOpen
          (sampleRequest "/quit" :: sampleRequest "/ok" :: []) =
        Event.Guarded (sampleRequest "/quit")
          :: Event.Send { StatusCode := 200, StatusMsg := "shutting down" }
          :: Event.CloseShutdown :: Event.Guarded (sampleRequest "/ok") :: tail :=
  ⟨(C13_shutdown_request_acknowledged sampleLib sampleRouteTest quitTarget
      (sampleRequest "/quit") [sampleRequest "/ok"] ⟨_, rfl, rfl⟩ (by decide)).1,
   (C13_shutdown_request_acknowledged sampleLib sampleRouteTest quitTarget
      (sampleRequest "/quit") [sampleRequest "/ok"] ⟨_, rfl, rfl⟩ (by decide)).2.1,
   (C13_shutdown_request_acknowledged sampleLib sampleRouteTest quitTarget
      (sampleRequest "/quit") [sampleRequest "/ok"] ⟨_, rfl, rfl⟩ (by decide)).2.2
      (sampleRequest "/ok") [] (by decide)⟩

/-- C14: for a request whose value under the lowercased route test header is
the name of the target, one turn of the loop sends exactly one response on
`Out` (status `route_test_response_code`, the one header entry
`route_test_header -> Name()`, the server id of the request and its client id
as a one-element list), does not hand the request to the target, and goes on
with the loop.  The same holds for the loop of `http_handler.go`. -/
theorem C14_route_test_is_acknowledged (lib : GoLib) (rt : RouteTest) (target : Httpified)
    (nilErrorText : String) (target0 : HttpHandler.Httpified) (sd : Chan)
    (req : HttpRequest) (rest : List HttpRequest)
    (hprobe : goLookup req.Header (lib.ToLower rt.route_test_header) = target.Name)
    (hprobe0 : goLookup req.Header (lib.ToLower rt.route_test_header) = target0.Name) :
    runHttp lib rt target sd (req :: rest) =
        Event.Send { ServerId := req.ServerId
                     ClientId := [req.ClientId]
                     StatusCode := rt.route_test_response_code
                     StatusMsg := "Thanks for testing with seven5"
                     Header := [(rt.route_test_header, target.Name)] }
          :: runHttp lib rt target sd rest ∧
      HttpHandler.RunHttp lib rt nilErrorText target0 (req :: rest) =
        HttpHandler.Event.Send (some
            { ServerId := req.ServerId
              ClientId := [req.ClientId]
              StatusCode := rt.route_test_response_code
              StatusMsg := "Thanks for testing with seven5"
              Header := [(rt.route_test_header, target0.Name)] })
          :: HttpHandler.RunHttp lib rt nilErrorText target0 rest := by
  constructor
  · simp [runHttp, hprobe, routeTestResponse]
  · simp [HttpHandler.RunHttp, hprobe0]

theorem C14_route_test_is_acknowledged_witness :
    runHttp sampleLib sampleRouteTest sampleTarget .isOpen
          [sampleProbe, sampleRequest "/ok"] =
        Event.Send { ServerId := "srv"
                     ClientId := [9]
                     StatusCode := 209
                     StatusMsg := "Thanks for testing with seven5"
                     Header := [("X-Seven5-Route-Test", "sample")] }
          :: runHttp sampleLib sampleRouteTest sampleTarget .isOpen [sampleRequest "/ok"] ∧
      HttpHandler.RunHttp sampleLib sampleRouteTest "nil pointer dereference"
          { Name := "sample", ProcessRequest := fun _ => .ok none }
          [sampleProbe, sampleRequest "/ok"] =
        HttpHandler.Event.Send (some
            { ServerId := "srv"
              ClientId := [9]
              StatusCode := 209
              StatusMsg := "Thanks for testing with seven5"
              Header := [("X-Seven5-Route-Test", "sample")] })
          :: HttpHandler.RunHttp sampleLib sampleRouteTest "nil pointer dereference"
              { Name := "sample", ProcessRequest := fun _ => .ok none }
              [sampleRequest "/ok"] :=
  C14_route_test_is_acknowledged sampleLib sampleRouteTest sampleTarget
    "nil pointer dereference" { Name := "sample", ProcessRequest := fun _ => .ok none }
    .isOpen sampleProbe [sampleRequest "/ok"] (by decide) (by decide)

/-- C15: when no request of the run makes the guarded call give the nil
response, the run is, request by request, the acknowledgement of a route test,
or the guarded call followed by the send of its result, and after the last
request the `close(Out)`, whatever the state of the shutdown channel.  So the
responses sent on `Out` are as many as the requests, the i-th being the
response produced for the i-th request, and a request is handed to the target
only after the response to the one before was sent. -/
theorem C15_responses_in_request_order (lib : GoLib) (rt : RouteTest) (target : Httpified)
    (sd : Chan) (reqs : List HttpRequest)
    (hno : ∀ r ∈ reqs, ¬ isRouteTest lib rt target r →
      protectedProcessRequest lib r target ≠ none) :
    runHttp lib rt target sd reqs =
        reqs.flatMap (fun r =>
          if isRouteTest lib rt target r then [Event.Send (routeTestResponse rt r target)]
          else
            match protectedProcessRequest lib r target with
            | some resp => [Event.Guarded r, Event.Send resp]
            | none => []) ++ [Event.CloseOut] ∧
      (sentOn (runHttp lib rt target sd reqs)).map some =
        reqs.map (fun r =>
          if isRouteTest lib rt target r then some (routeTestResponse rt r target)
          else protectedProcessRequest lib r target) ∧
      (sentOn (runHttp lib rt target sd reqs)).length = reqs.length := by
  induction reqs with
  | nil => exact ⟨by cases sd <;> rfl, by cases sd <;> rfl, by cases sd <;> rfl⟩
  | cons req rest ih =>
    have hrest : ∀ r ∈ rest, ¬ isRouteTest lib rt target r →
        protectedProcessRequest lib r target ≠ none :=
      fun r hr => hno r (List.mem_cons_of_mem _ hr)
    obtain ⟨h1, h2, h3⟩ := ih hrest
    by_cases hp : isRouteTest lib rt target req
    · have hp1 : target.Name = goLookup req.Header (lib.ToLower rt.route_test_header) := hp
      refine ⟨?_, ?_, ?_⟩
      · simp only [runHttp, hp1, if_true, List.flatMap_cons, hp, List.cons_append,
          List.nil_append, List.singleton_append]
        rw [h1]
      · simp only [runHttp, hp1, if_true, sentOn, List.map_cons, hp]
        rw [h2]
      · simp only [runHttp, hp1, if_true, sentOn, List.length_cons]
        rw [h3]
    · have hp1 : ¬ target.Name = goLookup req.Header (lib.ToLower rt.route_test_header) := hp
      cases hr : protectedProcessRequest lib req target with
      | none => exact absurd hr (hno req (List.mem_cons_self _ _) hp)
      | some resp =>
        refine ⟨?_, ?_, ?_⟩
        · simp only [runHttp, hp1, if_false, List.flatMap_cons, hp, hr, List.cons_append,
            List.nil_append]
          rw [h1]
        · simp only [runHttp, hp1, if_false, hr, sentOn, List.map_cons, hp]
          rw [h2]
        · simp only [runHttp, hp1, if_false, hr, sentOn, List.length_cons]
          rw [h3]

theorem C15_responses_in_request_order_witness :
    sentOn (runHttp sampleLib sampleRouteTest sampleTarget .isOpen
        [sampleRequest "/bad", sampleProbe, sampleRequest "/ok"]) =
      [panicPage "boom",
       routeTestResponse sampleRouteTest sampleProbe sampleTarget,
       { ServerId := "srv", ClientId := [7], StatusCode := 200,
         StatusMsg := "200 OK", ContentLength := 2, Body := some "ok" }] := by
  have h := (C15_responses_in_request_order sampleLib sampleRouteTest sampleTarget .isOpen
    [sampleRequest "/bad", sampleProbe, sampleRequest "/ok"] (by decide)).2.1
  have hinj : Function.Injective (some : HttpResponse → Option HttpResponse) :=
    Option.some_injective _
  apply List.map_injective_iff.mpr hinj
  rw [h]
  decide

/-! ## `toSimpleMap`, the error factories and `dumpOutput`: claims -/

theorem assocSet_fresh {V : Type} (l : List (String × V)) (k : String) (v : V)
    (h : k ∉ l.map Prod.fst) : assocSet l k v = l ++ [(k, v)] := by
  induction l with
  | nil => rfl
  | cons kv rest ih =>
    obtain ⟨k1, v1⟩ := kv
    simp only [List.map_cons, List.mem_cons, not_or] at h
    have hne : ¬ k1 = k := fun e => h.1 e.symm
    simp [assocSet, hne, ih h.2]

theorem toSimpleMapLoop_spec (TrimSpace : String → String)
    (m : List (String × List String)) (acc : StringMap)
    (hne : ∀ kv ∈ m, kv.2 ≠ []) (hnd : (m.map Prod.fst).Nodup)
    (hdisj : ∀ k ∈ m.map Prod.fst, k ∉ acc.map Prod.fst) :
    toSimpleMapLoop TrimSpace m acc =
      some (acc ++ m.map (fun kv => (kv.1, TrimSpace (kv.2.headD "")))) := by
  induction m generalizing acc with
  | nil => simp [toSimpleMapLoop]
  | cons kv rest ih =>
    obtain ⟨k, v⟩ := kv
    cases v with
    | nil => exact absurd rfl (hne (k, []) (by simp))
    | cons v0 vs =>
      simp only [List.map_cons, List.nodup_cons] at hnd
      have hk : k ∉ acc.map Prod.fst := hdisj k (by simp)
      simp only [toSimpleMapLoop, assocSet_fresh acc k (TrimSpace v0) hk]
      rw [ih (acc ++ [(k, TrimSpace v0)]) (fun kv h => hne kv (List.mem_cons_of_mem _ h))
        hnd.2]
      · simp
      · intro k1 hk1
        simp only [List.map_append, List.map_cons, List.map_nil, List.mem_append,
          List.mem_singleton, not_or]
        refine ⟨hdisj k1 (by simp [hk1]), ?_⟩
        intro e
        subst e
        exact hnd.1 hk1

theorem lookup_map_of_nodup (g : List String → String) (m : List (String × List String))
    (hnd : (m.map Prod.fst).Nodup) (k : String) (v : List String) (h : (k, v) ∈ m) :
    (m.map (fun kv => (kv.1, g kv.2))).lookup k = some (g v) := by
  induction m with
  | nil => simp at h
  | cons kv rest ih =>
    obtain ⟨k1, v1⟩ := kv
    simp only [List.map_cons, List.nodup_cons] at hnd
    rcases List.mem_cons.mp h with e | hmem
    · cases e
      simp [List.lookup]
    · have hne : k ≠ k1 := by
        intro e
        subst e
        exact hnd.1 (List.mem_map_of_mem Prod.fst hmem)
      have hb : (k == k1) = false := by simpa using hne
      simp only [List.map_cons, List.lookup, hb]
      exact ih hnd.2 hmem

/-- C16: on a map whose value lists are all non-empty (its keys being
distinct), `toSimpleMap` returns a map with exactly the keys of the input,
each key holding the first value of its list, trimmed; the further values play
no part.  On an entry with an empty list the indexing panics. -/
theorem C16_toSimpleMap_keeps_first_value (TrimSpace : String → String)
    (m : List (String × List String)) (k : String) (v : List String)
    (pre post : List (String × List String))
    (hne : ∀ kv ∈ m, kv.2 ≠ []) (hnd : (m.map Prod.fst).Nodup) (hkv : (k, v) ∈ m) :
    toSimpleMap TrimSpace m =
        some (m.map (fun kv => (kv.1, TrimSpace (kv.2.headD "")))) ∧
      (∃ result, toSimpleMap TrimSpace m = some result ∧
        result.map Prod.fst = m.map Prod.fst ∧
        result.lookup k = some (TrimSpace (v.headD ""))) ∧
      toSimpleMap TrimSpace (pre ++ (k, []) :: post) = none := by
  have hmain : toSimpleMap TrimSpace m =
      some (m.map (fun kv => (kv.1, TrimSpace (kv.2.headD "")))) := by
    unfold toSimpleMap
    rw [toSimpleMapLoop_spec TrimSpace m [] hne hnd (by simp)]
    simp
  refine ⟨hmain, ⟨_, hmain, ?_, ?_⟩, ?_⟩
  · simp [List.map_map, Function.comp_def]
  · exact lookup_map_of_nodup (fun l => TrimSpace (l.headD "")) m hnd k v hkv
  · unfold toSimpleMap
    generalize ([] : StringMap) = acc
    induction pre generalizing acc with
    | nil => simp [toSimpleMapLoop]
    | cons kv rest ih =>
      obtain ⟨k1, v1⟩ := kv
      cases v1 with
      | nil => simp [toSimpleMapLoop]
      | cons v0 vs =>
        simp only [List.cons_append, toSimpleMapLoop]
        exact ih _

theorem C16_toSimpleMap_keeps_first_value_witness :
    toSimpleMap String.trim [("Accept", [" text/json ", "text/html"]), ("max", ["2"])] =
        some ([("Accept", [" text/json ", "text/html"]), ("max", ["2"])].map
          (fun kv => (kv.1, String.trim (kv.2.headD "")))) ∧
      (∃ result,
        toSimpleMap String.trim [("Accept", [" text/json ", "text/html"]), ("max", ["2"])] =
          some result ∧
        result.map Prod.fst =
          [("Accept", [" text/json ", "text/html"]), ("max", ["2"])].map Prod.fst ∧
        result.lookup "Accept" =
          some (String.trim ([" text/json ", "text/html"].headD ""))) ∧
      toSimpleMap String.trim ([("max", ["2"])] ++ ("Accept", []) :: []) = none :=
  C16_toSimpleMap_keeps_first_value String.trim
    [("Accept", [" text/json ", "text/html"]), ("max", ["2"])] "Accept"
    [" text/json ", "text/html"] [("max", ["2"])] [] (by decide) (by decide)
    (by decide)

/-- C17: every error factory returns the empty payload and an `Error` with an
empty `Location` and a fixed status: `BadRequest(msg)` 400 with the message
`BadRequest - <msg> `, `NoContent()` 204, `NotFound()` 404,
`NotImplemented()` 501, and `InternalErr(err)` 500 with the text of `err` as
message. -/
theorem C17_error_factories (msg errText : String) :
    BadRequest msg = ("", some ⟨400, "", "BadRequest - " ++ msg ++ " "⟩) ∧
      NoContent = ("", some ⟨204, "", "No content"⟩) ∧
      NotFound = ("", some ⟨404, "", "Not found"⟩) ∧
      NotImplemented = ("", some ⟨501, "", "Not implemented"⟩) ∧
      InternalErr errText = ("", some ⟨500, "", errText⟩) ∧
      ((BadRequest msg).2.map Error.StatusCode = some 400 ∧
        (NoContent).2.map Error.StatusCode = some 204 ∧
        (NotFound).2.map Error.StatusCode = some 404 ∧
        (NotImplemented).2.map Error.StatusCode = some 501 ∧
        (InternalErr errText).2.map Error.StatusCode = some 500) ∧
      ((BadRequest msg).2.map Error.Location = some "" ∧
        (NoContent).2.map Error.Location = some "" ∧
        (NotFound).2.map Error.Location = some "" ∧
        (NotImplemented).2.map Error.Location = some "" ∧
        (InternalErr errText).2.map Error.Location = some "") :=
  ⟨rfl, rfl, rfl, rfl, rfl, ⟨rfl, rfl, rfl, rfl, rfl⟩, ⟨rfl, rfl, rfl, rfl, rfl⟩⟩

/-- C18: with an error, `dumpOutput` renders the error and drops the payload:
it adds the `Location` header exactly when the location is not empty, then
calls `http.Error` with the message and the status of the error, and never
writes the payload; the payload is written exactly when the error is nil. -/
theorem C18_dumpOutput_error_wins (json : String) (e : Error) (err : Option Error) :
    dumpOutput json (some e) =
        (if e.Location ≠ "" then [WriterCall.HeaderAdd "Location" e.Location] else [])
          ++ [WriterCall.HttpError e.Message e.StatusCode] ∧
      WriterCall.Write json ∉ dumpOutput json (some e) ∧
      (WriterCall.HeaderAdd "Location" e.Location ∈ dumpOutput json (some e) ↔
        e.Location ≠ "") ∧
      dumpOutput json none = [WriterCall.Write json] ∧
      (WriterCall.Write json ∈ dumpOutput json err ↔ err = none) := by
  refine ⟨rfl, ?_, ?_, rfl, ?_⟩
  · unfold dumpOutput
    by_cases h : e.Location = "" <;> simp [h]
  · unfold dumpOutput
    by_cases h : e.Location = "" <;> simp [h]
  · cases err with
    | none => simp [dumpOutput]
    | some e1 =>
      unfold dumpOutput
      by_cases h : e1.Location = "" <;> simp [h]

/-! ## The earlier runner and the login: claims -/

/-- C19, at the failing input: on a started runner of `http_handler.go`,
`Shutdown` closes `Out` and leaves `In` open, so the send of a response that
was being produced does not complete (a send on a closed channel panics),
while after the `Shutdown` of `m2conn.go` the same send completes.  Before
the channels exist it is a no-op. -/
theorem C19_earlier_shutdown_closes_out :
    HttpRunnerDefault.Shutdown { In := some .isOpen, Out := some .isOpen } =
        some { In := some .isOpen, Out := some .isClosed } ∧
      (HttpRunnerDefault.Shutdown { In := some .isOpen, Out := some .isOpen }).bind
          (fun s => chanSend s.Out) = none ∧
      (httpRunnerDefault.Shutdown { In := some .isOpen, Out := some .isOpen }).bind
          (fun s => chanSend s.Out) = some () ∧
      HttpRunnerDefault.Shutdown { In := none, Out := none } =
        some { In := none, Out := none } := by
  decide

/-- Whenever the login writes a session, its id is made from the draw that
follows the one whose id the lookup found absent. -/
theorem login_written_id (lib : LoginLib) (store : StoreT) (draws : List Draw)
    (req : HttpRequest) (out : LoginOutcome) (s : Session)
    (h : LoginGuise.ProcessRequest lib store draws req = some out)
    (hw : out.written = some s) :
    ∃ r d rest, sessionIdLoop store draws = some (.ok (r, d :: rest)) ∧
      s.SessionId = createRandomSessionId d := by
  unfold LoginGuise.ProcessRequest at h
  simp only at h
  split at h
  · cases h; cases hw
  · split at h
    · split at h
      · cases h; cases hw
      · split at h
        · cases h; cases hw
        · cases h; cases hw
        · split at h
          · cases h; cases hw
          · cases h; cases hw
          · split at h
            · cases h
            · cases h; cases hw
            · cases h
            · rename_i r d rest hl
              split at h
              · cases h; cases hw
              · cases h
                cases hw
                exact ⟨_, _, _, hl, rfl⟩
    · cases h

/-- C20, at the failing input: the draws give `aaa-000` and then `bbb-111`,
and the store already holds a session `bbb-111`.  The lookup finds `aaa-000`
absent, yet the session written carries `bbb-111`, the next draw, which was
never looked up and is in use. -/
theorem C20_written_id_is_a_fresh_draw :
    sessionIdLoop sampleStore sampleDraws =
        some (.ok ("aaa-000", [{ l0 := 1, l1 := 1, l2 := 1, n := 111 }])) ∧
      LoginGuise.ProcessRequest sampleLoginLib sampleStore sampleDraws
          (sampleRequest "/api/seven5/login") =
        some { resp :=
                 { ServerId := "srv"
                   ClientId := [7]
                   StatusCode := 200
                   StatusMsg := "ok"
                   Header := [("Content-Type", "text/json")]
                   ContentLength := 23
                   Body := some "\x7b\"sessionId\":\"bbb-111\"\x7d" }
               written := some { Owner := ann, SessionId := "bbb-111", Info := [] } } ∧
      sampleStore.FindSessionsByKey "SessionId" "bbb-111" =
        .ok [{ Owner := ann, SessionId := "bbb-111", Info := [] }] :=
  ⟨rfl, by decide, rfl⟩

/-! ## Invariants of the resolver: claim -/

/-- C21: on a registry without the empty key, whenever `resolve` reports a
match, that is a triple `(matched, id, resource)` other than the no-match
triple: `matched` is not empty and is a registry key holding `resource`,
`matched` followed by `id` is the path, `id` holds no separator, and `id` is
empty exactly when the path is itself a registry key or ends in the
separator. -/
theorem C21_resolve_match_invariants {D : Type} (self : SimpleHandler D)
    (path matched id : String) (res : Iface)
    (hkeys : self.resource "" = none)
    (hres : resolve self path = some (matched, id, res))
    (hmatch : (matched, id, res) ≠ ("", "", none)) :
    matched ≠ "" ∧
      self.resource matched = some res ∧
      matched ++ id = path ∧
      slash ∉ id.data ∧
      (id = "" ↔ ((self.resource path).isSome ∨ path.data.getLast? = some slash)) := by
  rw [resolve_eq_resolveRef] at hres
  have href : resolveRef self path = (matched, id, res) := Option.some.inj hres
  unfold resolveRef at href
  cases h1 : self.resource path with
  | some r =>
    simp only [h1, Prod.mk.injEq] at href
    obtain ⟨e1, e2, e3⟩ := href
    subst e1; subst e2; subst e3
    refine ⟨?_, h1, ?_, by simp, ?_⟩
    · intro hp
      rw [hp, hkeys] at h1
      cases h1
    · apply string_eq_of_data
      simp [String.data_append]
    · simp
  | none =>
    cases h2 : splitLast slash path.data with
    | none =>
      simp only [h1, h2] at href
      exact absurd href.symm hmatch
    | some pr =>
      obtain ⟨p, r⟩ := pr
      cases h3 : self.resource ⟨p⟩ with
      | none =>
        simp only [h1, h2, h3] at href
        exact absurd href.symm hmatch
      | some res1 =>
        simp only [h1, h2, h3, Prod.mk.injEq] at href
        obtain ⟨e1, e2, e3⟩ := href
        subst e1; subst e2; subst e3
        obtain ⟨hsp1, hsp2, hsp3⟩ := splitLast_spec slash path.data p r h2
        have hr : r ≠ [] := by
          intro hnil
          subst hnil
          have hp : (⟨p⟩ : String) = path := by
            apply string_eq_of_data
            simp [hsp1]
          rw [hp, h1] at h3
          cases h3
        refine ⟨?_, h3, ?_, hsp3, ?_⟩
        · intro hp
          have hd := congrArg String.data hp
          simp only at hd
          rw [hd] at hsp2
          simp at hsp2
        · apply string_eq_of_data
          simp [String.data_append, hsp1]
        · constructor
          · intro hid
            exfalso
            apply hr
            have := congrArg String.data hid
            simpa using this
          · intro h
            exfalso
            rcases h with h | h
            · simp at h
            · rw [hsp1, List.getLast?_append_of_ne_nil _ hr] at h
              exact hsp3 (List.mem_of_getLast?_eq_some h)

theorem C21_resolve_match_invariants_witness :
    "/widget/" ≠ "" ∧
      sampleHandler.resource "/widget/" = some (some widgetFinder) ∧
      "/widget/" ++ "42" = "/widget/42" ∧
      slash ∉ "42".data ∧
      ("42" = "" ↔ ((sampleHandler.resource "/widget/42").isSome ∨
        "/widget/42".data.getLast? = some slash)) :=
  C21_resolve_match_invariants sampleHandler "/widget/42" "/widget/" "42"
    (some widgetFinder) rfl rfl (fun h => absurd (congrArg Prod.fst h) (by decide))

/-! ## Addressing of the responses and the route test: claims -/

theorem httpToM2_addressed (lib : GoLib) (sid : String) (cid : Int) (inp : Response)
    (resp : HttpResponse) (h : httpToM2 lib sid cid inp = .ok resp) :
    resp.ServerId = sid ∧ resp.ClientId = [cid] := by
  unfold httpToM2 at h
  split at h
  · cases h
  · cases h
    exact ⟨rfl, rfl⟩

/-- The two kinds of response that do carry the address of the request: the
one translated by `httpToM2` from what the target returned, and the
acknowledgement of a route test. -/
theorem translated_response_addressed (lib : GoLib) (rt : RouteTest) (target : Httpified)
    (req : HttpRequest) (resp : HttpResponse)
    (h : processRequestBody lib req target = .ok (some resp)) :
    (resp.ServerId = req.ServerId ∧ resp.ClientId = [req.ClientId]) ∧
      (routeTestResponse rt req target).ServerId = req.ServerId ∧
      (routeTestResponse rt req target).ClientId = [req.ClientId] := by
  refine ⟨?_, rfl, rfl⟩
  unfold processRequestBody at h
  split at h
  · cases h
  · split at h
    · cases h
    · cases h
    · split at h
      · cases h
      · rename_i hm
        cases h
        exact httpToM2_addressed lib _ _ _ _ hm

/-- C22, at the failing inputs: the 500 page sent after the target panicked and
the acknowledgement sent after the target asked for a shutdown carry an empty
server id and no client id, while the request came from server `srv`, client
7. -/
theorem C22_panic_page_and_shutdown_ack_not_addressed :
    runHttp sampleLib sampleRouteTest sampleTarget .isOpen [sampleRequest "/bad"] =
        [Event.Guarded (sampleRequest "/bad"),
         Event.Send { ServerId := "", ClientId := [], StatusCode := 500,
                      StatusMsg := "Internal Server Error", ContentLength := 12,
                      Body := some "Panic: boom\n" },
         Event.CloseOut] ∧
      runHttp sampleLib sampleRouteTest quitTarget .isOpen [sampleRequest "/quit"] =
        [Event.Guarded (sampleRequest "/quit"),
         Event.Send { ServerId := "", ClientId := [], StatusCode := 200,
                      StatusMsg := "shutting down" },
         Event.CloseShutdown,
         Event.CloseOut] ∧
      (sampleRequest "/bad").ServerId = "srv" ∧ (sampleRequest "/bad").ClientId = 7 ∧
      (sampleRequest "/quit").ServerId = "srv" ∧ (sampleRequest "/quit").ClientId = 7 := by
  decide

/-- C23 fails as stated: the sample request has no entry for the lowercased
route test header, yet for a target whose name is the empty text both loops
take it for a route test: the acknowledgement is sent and the guarded call is
not made. -/
theorem C23_nameless_target_takes_every_request_for_a_route_test :
    (sampleRequest "/ok").Header.lookup
        (sampleLib.ToLower sampleRouteTest.route_test_header) = none ∧
      runHttp sampleLib sampleRouteTest namelessTarget .isOpen [sampleRequest "/ok"] =
        [Event.Send (routeTestResponse sampleRouteTest (sampleRequest "/ok") namelessTarget),
         Event.CloseOut] ∧
      HttpHandler.RunHttp sampleLib sampleRouteTest "nil pointer dereference"
          namelessTarget0 [sampleRequest "/ok"] =
        [HttpHandler.Event.Send (some
          { ServerId := "srv", ClientId := [7], StatusCode := 209,
            StatusMsg := "Thanks for testing with seven5",
            Header := [("X-Seven5-Route-Test", "")] })] := by
  decide

/-- C23, amended: for a target whose name is not the empty text, a request
whose header map has no entry for the lowercased route test header is not
taken for a route test: both loops hand it to the guarded call and send what
that call gave (in `m2conn.go` the shutdown acknowledgement, followed by the
close of the shutdown channel, when it gave the nil response), not the
acknowledgement of a route test. -/
theorem C23_absent_header_reaches_the_target (lib : GoLib) (rt : RouteTest)
    (target : Httpified) (nilErrorText : String) (target0 : HttpHandler.Httpified)
    (sd : Chan) (req : HttpRequest) (rest : List HttpRequest)
    (hname : target.Name ≠ "") (hname0 : target0.Name ≠ "")
    (habsent : req.Header.lookup (lib.ToLower rt.route_test_header) = none) :
    ¬ isRouteTest lib rt target req ∧
      runHttp lib rt target sd (req :: rest) =
        Event.Guarded req ::
          (match protectedProcessRequest lib req target with
           | none =>
             Event.Send { StatusCode := 200, StatusMsg := "shutting down" }
               :: (match closeChan sd with
                   | none => [Event.Panic]
                   | some sd1 => Event.CloseShutdown :: runHttp lib rt target sd1 rest)
           | some resp => Event.Send resp :: runHttp lib rt target sd rest) ∧
      HttpHandler.RunHttp lib rt nilErrorText target0 (req :: rest) =
        HttpHandler.Event.Guarded req
          :: HttpHandler.Event.Send
              (HttpHandler.protectedProcessRequest nilErrorText req target0)
          :: HttpHandler.RunHttp lib rt nilErrorText target0 rest := by
  have hlook : goLookup req.Header (lib.ToLower rt.route_test_header) = "" := by
    simp [goLookup, habsent]
  have hroute : ¬ target.Name = goLookup req.Header (lib.ToLower rt.route_test_header) := by
    rw [hlook]; exact hname
  have hroute0 :
      ¬ target0.Name = goLookup req.Header (lib.ToLower rt.route_test_header) := by
    rw [hlook]; exact hname0
  refine ⟨hroute, ?_, ?_⟩
  · simp only [runHttp, hroute, if_false]
    cases protectedProcessRequest lib req target <;> rfl
  · simp only [HttpHandler.RunHttp, hroute0, if_false]

theorem C23_absent_header_reaches_the_target_witness :
    ¬ isRouteTest sampleLib sampleRouteTest sampleTarget (sampleRequest "/ok") ∧
      runHttp sampleLib sampleRouteTest sampleTarget .isOpen [sampleRequest "/ok"] =
        Event.Guarded (sampleRequest "/ok") ::
          (match protectedProcessRequest sampleLib (sampleRequest "/ok") sampleTarget with
           | none =>
             Event.Send { StatusCode := 200, StatusMsg := "shutting down" }
               :: (match closeChan Chan.isOpen with
                   | none => [Event.Panic]
                   | some sd1 =>
                     Event.CloseShutdown :: runHttp sampleLib sampleRouteTest sampleTarget sd1 [])
           | some resp =>
             Event.Send resp :: runHttp sampleLib sampleRouteTest sampleTarget .isOpen []) ∧
      HttpHandler.RunHttp sampleLib sampleRouteTest "nil pointer dereference"
          { Name := "sample", ProcessRequest := fun _ => .ok none }
          [sampleRequest "/ok"] =
        HttpHandler.Event.Guarded (sampleRequest "/ok")
          :: HttpHandler.Event.Send
              (HttpHandler.protectedProcessRequest "nil pointer dereference"
                (sampleRequest "/ok")
                { Name := "sample", ProcessRequest := fun _ => .ok none })
          :: HttpHandler.RunHttp sampleLib sampleRouteTest "nil pointer dereference"
              { Name := "sample", ProcessRequest := fun _ => .ok none } [] :=
  C23_absent_header_reaches_the_target sampleLib sampleRouteTest sampleTarget
    "nil pointer dereference" { Name := "sample", ProcessRequest := fun _ => .ok none }
    .isOpen (sampleRequest "/ok") [] (by decide) (by decide) (by decide)

end Seven5
